import Mathlib

/-!
Verification of the RPS backend game-session engine.

The JavaScript sources are shallowly embedded: in-memory game state becomes a
Lean structure, JS `Map`s become insertion-ordered association lists, thrown
exceptions become `Except.error`, and external collaborators (database balance
checks, fresh UUIDs, `Math.random`, wall-clock time) become explicit
parameters.  JS `undefined`/`null` of string fields is `Option.none`, and JS
truthiness of such fields is `strTruthy` (`null`/`undefined`/`""` are falsy).
-/

set_option maxHeartbeats 1000000

namespace RPS

/-- JS truthiness of a nullable string: `null`, `undefined` and `""` are falsy. -/
def strTruthy : Option String → Bool
  | none => false
  | some s => decide (s ≠ "")

/-- `constants.js`: the three canonical moves. -/
def VALID_MOVES : List String := ["rock", "paper", "scissors"]

/-- `constants.js`: first to 3 round wins takes the match. -/
def WINNING_SCORE : Nat := 3

/-- `gameLogic.js` `determineWinner`: round winner of two raw move strings;
throws on a move outside `VALID_MOVES`. -/
def determineWinner (move1 move2 : String) : Except String String :=
  if move1 ∉ VALID_MOVES ∨ move2 ∉ VALID_MOVES then
    .error "Invalid move provided"
  else if move1 = move2 then
    .ok "draw"
  else
    let winConditions : String → Option String := fun m =>
      if m = "rock" then some "scissors"
      else if m = "scissors" then some "paper"
      else if m = "paper" then some "rock"
      else none
    if winConditions move1 = some move2 then .ok "player1" else .ok "player2"

/-- One player slot of a match (`gameLogic.js` `createGameState`). -/
structure Player where
  id : Option String
  socketId : Option String
  wallet : Option String
  wins : Nat
  currentMove : Option String
  ready : Bool
  stakeDeposited : Bool
deriving Repr, DecidableEq

/-- One entry of `moveHistory` (`gameLogic.js` `processRound`). -/
structure RoundHistory where
  round : Nat
  player1Move : String
  player2Move : String
  winner : String
  timestamp : Int
deriving Repr, DecidableEq

/-- The `roundResult` object built by `processRound`. -/
structure RoundResult where
  round : Nat
  player1Move : String
  player2Move : String
  roundWinner : String
  gameWinner : Option String
  score1 : Nat
  score2 : Nat
  gameFinished : Bool
deriving Repr, DecidableEq

/-- A match's in-memory state (`gameLogic.js` `createGameState`).  The fields
`readyForCompletion`, `completionData`, `processed` and `completionProcessed`
are absent (JS `undefined`, hence falsy) until some handler assigns them, so
they are modelled as initially-`false`/`none` fields. -/
structure GameState where
  gameId : String
  gameType : String
  currency : String
  stakeAmount : Rat
  totalPot : Rat
  platformFee : Rat
  winnerPayout : Rat
  player1 : Player
  player2 : Player
  currentRound : Nat
  gameStatus : String
  winner : Option String
  moveHistory : List RoundHistory
  createdAt : Int
  readyForCompletion : Bool
  completionData : Option RoundResult
  processed : Bool
  completionProcessed : Bool
deriving Repr, DecidableEq

/-- A freshly created player slot: all fields empty. -/
def emptyPlayer : Player :=
  { id := none, socketId := none, wallet := none, wins := 0,
    currentMove := none, ready := false, stakeDeposited := false }

/-- `gameLogic.js` `createGameState`: initial state of a match.  SOL games get
a stake-dependent platform fee; points games none.  `now` stands for
`new Date()` at creation time. -/
def createGameState (gameId : String) (gameType : String) (stakeAmount : Rat)
    (currency : String) (now : Int) : GameState :=
  let feeRate : Rat :=
    if stakeAmount ≤ 1/100 then 5/100 else if stakeAmount ≤ 5/100 then 3/100 else 2/100
  let platformFee : Rat := if currency = "sol" then stakeAmount * 2 * feeRate else 0
  let winnerPayout : Rat :=
    if currency = "sol" then stakeAmount * 2 - platformFee else stakeAmount * 2
  { gameId := gameId, gameType := gameType, currency := currency,
    stakeAmount := stakeAmount, totalPot := stakeAmount * 2,
    platformFee := platformFee, winnerPayout := winnerPayout,
    player1 := emptyPlayer, player2 := emptyPlayer,
    currentRound := 1, gameStatus := "waiting_for_player", winner := none,
    moveHistory := [], createdAt := now,
    readyForCompletion := false, completionData := none,
    processed := false, completionProcessed := false }

/-- Result triple returned by `processMove`/`processRound`. -/
structure MoveOutcome where
  gameState : GameState
  roundComplete : Bool
  roundResult : Option RoundResult
deriving Repr, DecidableEq

/-- `gameLogic.js` `processRound`: resolve the round from the two stored
current moves.  A `null` stored move reaches `determineWinner` as a non-valid
argument in JS, so both `none` cases collapse to the same thrown error, before
any state is mutated. -/
def processRound (g : GameState) (now : Int) : Except String MoveOutcome :=
  match g.player1.currentMove, g.player2.currentMove with
  | some move1, some move2 =>
    match determineWinner move1 move2 with
    | .error e => .error e
    | .ok roundWinner =>
      let hist : RoundHistory :=
        { round := g.currentRound, player1Move := move1, player2Move := move2,
          winner := roundWinner, timestamp := now }
      let g1 := { g with moveHistory := g.moveHistory ++ [hist] }
      let g2 :=
        if roundWinner = "player1" then
          { g1 with player1 := { g1.player1 with wins := g1.player1.wins + 1 } }
        else if roundWinner = "player2" then
          { g1 with player2 := { g1.player2 with wins := g1.player2.wins + 1 } }
        else g1
      let g3 :=
        if g2.player1.wins ≥ WINNING_SCORE then
          { g2 with gameStatus := "finished", winner := g2.player1.id }
        else if g2.player2.wins ≥ WINNING_SCORE then
          { g2 with gameStatus := "finished", winner := g2.player2.id }
        else g2
      let gameWinner : Option String :=
        if g2.player1.wins ≥ WINNING_SCORE then some "player1"
        else if g2.player2.wins ≥ WINNING_SCORE then some "player2"
        else none
      .ok { gameState := g3, roundComplete := true,
            roundResult := some
              { round := hist.round, player1Move := move1, player2Move := move2,
                roundWinner := roundWinner, gameWinner := gameWinner,
                score1 := g3.player1.wins, score2 := g3.player2.wins,
                gameFinished := decide (g3.gameStatus = "finished") } }
  | _, _ => .error "Invalid move provided"

/-- `gameLogic.js` `processMove`.  JS mutates the state in place, so the
updated state survives even when round resolution throws; the embedding
therefore always returns the (possibly mutated) state next to the result. -/
def processMove (g : GameState) (playerId move : String) (now : Int) :
    GameState × Except String MoveOutcome :=
  if move ∉ VALID_MOVES then (g, .error ("Invalid move: " ++ move))
  else if g.gameStatus ≠ "playing" then (g, .error "Game is not in playing state")
  else
    let isPlayer1 := g.player1.id = some playerId
    let isPlayer2 := g.player2.id = some playerId
    if ¬ isPlayer1 ∧ ¬ isPlayer2 then (g, .error "Player not in this game")
    else
      let g1 :=
        if isPlayer1 then { g with player1 := { g.player1 with currentMove := some move } }
        else { g with player2 := { g.player2 with currentMove := some move } }
      if strTruthy g1.player1.currentMove ∧ strTruthy g1.player2.currentMove then
        match processRound g1 now with
        | .ok out => (out.gameState, .ok out)
        | .error e => (g1, .error e)
      else (g1, .ok { gameState := g1, roundComplete := false, roundResult := none })

/-- `gameLogic.js` `addPlayer`: rejoin an existing slot or occupy a free one;
starts the match when the second slot fills. -/
def addPlayer (g : GameState) (playerId socketId : String)
    (walletAddress : Option String) : Except String (GameState × String) :=
  if g.player1.id = some playerId then
    let p := { g.player1 with
      socketId := some socketId,
      wallet := if strTruthy walletAddress then walletAddress else g.player1.wallet,
      currentMove := none, ready := false }
    .ok ({ g with player1 := p }, "player1")
  else if g.player2.id = some playerId then
    let p := { g.player2 with
      socketId := some socketId,
      wallet := if strTruthy walletAddress then walletAddress else g.player2.wallet,
      currentMove := none, ready := false }
    let g1 := { g with player2 := p }
    let g2 :=
      if strTruthy g1.player1.id ∧ strTruthy g1.player2.id ∧
          g1.gameStatus = "waiting_for_player" then
        { g1 with gameStatus := "playing", currentRound := 1 }
      else g1
    .ok (g2, "player2")
  else if g.player1.id = none then
    let p := { g.player1 with
      id := some playerId, socketId := some socketId, wallet := walletAddress }
    .ok ({ g with player1 := p }, "player1")
  else if g.player2.id = none then
    let p := { g.player2 with
      id := some playerId, socketId := some socketId, wallet := walletAddress }
    let g1 := { g with player2 := p }
    .ok ({ g1 with gameStatus := "playing", currentRound := 1 }, "player2")
  else .error "Game is full"

/-- Insertion-ordered association list modelling a JS `Map` (string keys). -/
abbrev JsMap (α : Type) := List (String × α)

/-- `Map.get`: value of the first (in a JS `Map`: the only) entry with key `k`. -/
def mapGet {α : Type} (m : JsMap α) (k : String) : Option α :=
  (m.find? (fun e => e.1 == k)).map (·.2)

/-- `Map.set`: replace in place when the key exists (JS `Map.set` keeps the
original insertion position), else append. -/
def mapSet {α : Type} (m : JsMap α) (k : String) (v : α) : JsMap α :=
  if m.any (fun e => e.1 == k) then m.map (fun e => if e.1 == k then (k, v) else e)
  else m ++ [(k, v)]

/-- `Map.delete`. -/
def mapDelete {α : Type} (m : JsMap α) (k : String) : JsMap α :=
  m.filter (fun e => e.1 != k)

/-- A JS `Map` cannot hold two entries with the same key. -/
def JsMap.WF {α : Type} (m : JsMap α) : Prop := (m.map (·.1)).Nodup

/-- A matchmaking-queue entry (`gameManager.js` `findRandomMatch`). -/
structure Ticket where
  playerId : String
  socketId : String
  stakeAmount : Rat
  currency : String
  walletAddress : Option String
  queuedAt : Int
deriving Repr, DecidableEq

/-- The mutable state of the `GameManager` class (`gameManager.js`
constructor). -/
structure GameManager where
  games : JsMap GameState
  playerGames : JsMap String
  publicQueue : List Ticket
deriving Repr, DecidableEq

/-- `gameManager.js` `getGame`. -/
def GameManager.getGame (mgr : GameManager) (gameId : String) : Option GameState :=
  mapGet mgr.games gameId

/-- `gameManager.js` `getPlayerGame`. -/
def GameManager.getPlayerGame (mgr : GameManager) (playerId : String) : Option GameState :=
  match mapGet mgr.playerGames playerId with
  | none => none
  | some gameId => mapGet mgr.games gameId

/-- The slot object `removePlayer` writes over a vacated slot.  The JS literal
has no `ready` field, leaving it `undefined` (falsy), modelled as `false`. -/
def clearedPlayer : Player :=
  { id := none, socketId := none, wallet := none, wins := 0,
    currentMove := none, ready := false, stakeDeposited := false }

/-- `gameManager.js` `removePlayer`: drop the queue ticket, vacate the slot,
remove the player-map entry, and settle the match status; refunds go to
external collaborators and do not touch manager state. -/
def GameManager.removePlayer (mgr : GameManager) (playerId : String) :
    GameManager × Except String String :=
  let queue :=
    match mgr.publicQueue.findIdx? (fun p => p.playerId == playerId) with
    | some i => mgr.publicQueue.eraseIdx i
    | none => mgr.publicQueue
  let mgr := { mgr with publicQueue := queue }
  match mapGet mgr.playerGames playerId with
  | none => (mgr, .error "Player not in any game")
  | some gameId =>
    match mapGet mgr.games gameId with
    | none => (mgr, .error "Game not found")
    | some gameState =>
      let g1 :=
        if gameState.player1.id = some playerId then { gameState with player1 := clearedPlayer }
        else if gameState.player2.id = some playerId then { gameState with player2 := clearedPlayer }
        else gameState
      let mgr := { mgr with playerGames := mapDelete mgr.playerGames playerId }
      let g2 :=
        if ¬ strTruthy g1.player1.id ∧ ¬ strTruthy g1.player2.id then
          { g1 with gameStatus := "finished" }
        else if g1.gameStatus = "playing" then
          let remainingPlayer := if strTruthy g1.player1.id then g1.player1.id else g1.player2.id
          { g1 with gameStatus := "finished", winner := remainingPlayer }
        else g1
      ({ mgr with games := mapSet mgr.games gameId g2 }, .ok gameId)

/-- Result object of `createGame`. -/
structure CreateResult where
  gameId : String
  gameState : GameState
  playerPosition : Option String
  inviteLink : Option String
deriving Repr, DecidableEq

/-- `gameManager.js` `createGame`.  External pieces are parameters: `db w`
stands for `databaseService.hasEnoughPoints(w, 100)`, `freshId` for
`uuidv4()`, and `now` for the creation timestamp. -/
def GameManager.createGame (mgr : GameManager) (gameType : String)
    (stakeAmount : Rat) (currency : String)
    (creatorId socketId walletAddress providedGameId : Option String)
    (db : String → Bool) (freshId : String) (now : Int) :
    GameManager × Except String CreateResult :=
  let validationError : Option String :=
    if currency = "points" then
      if stakeAmount ≠ 100 then some "Points games must cost exactly 100 points"
      else if strTruthy walletAddress ∧ ¬ db (walletAddress.getD "") then
        some "Insufficient points. You need 100 points to play."
      else none
    else if currency = "sol" then
      if stakeAmount ≤ 0 then some "SOL games must have a positive stake amount" else none
    else some "Invalid currency. Must be \"points\" or \"sol\""
  match validationError with
  | some e => (mgr, .error e)
  | none =>
    let gameId0 := if strTruthy providedGameId then providedGameId.getD "" else freshId
    let gameId :=
      if currency = "sol" ∧ gameId0.length > 32 then
        String.mk ((gameId0.toList.filter (fun c => c ≠ '-')).take 32)
      else gameId0
    let gameState := createGameState gameId gameType stakeAmount currency now
    if strTruthy creatorId ∧ strTruthy socketId then
      let cid := creatorId.getD ""
      let mgr1 :=
        if (mapGet mgr.playerGames cid).isSome then
          { mgr with playerGames := mapDelete mgr.playerGames cid }
        else mgr
      match addPlayer gameState cid (socketId.getD "") walletAddress with
      | .error e => (mgr1, .error e)
      | .ok (st0, pos) =>
        let st :=
          if currency = "sol" then
            { st0 with player1 := { st0.player1 with stakeDeposited := true } }
          else st0
        ({ mgr1 with games := mapSet mgr1.games gameId st,
                     playerGames := mapSet mgr1.playerGames cid gameId },
         .ok { gameId := gameId, gameState := st, playerPosition := some pos,
               inviteLink := if gameType = "private" then some gameId else none })
    else
      ({ mgr with games := mapSet mgr.games gameId gameState },
       .ok { gameId := gameId, gameState := gameState, playerPosition := none,
             inviteLink := if gameType = "private" then some gameId else none })

/-- Result object of `joinGame`. -/
structure JoinResult where
  gameId : String
  gameState : GameState
  playerPosition : String
  gameStarted : Bool
deriving Repr, DecidableEq

/-- `gameManager.js` `joinGame`. -/
def GameManager.joinGame (mgr : GameManager) (gameId playerId socketId : String)
    (walletAddress : Option String) (db : String → Bool) :
    GameManager × Except String JoinResult :=
  match mapGet mgr.games gameId with
  | none => (mgr, .error "Game not found")
  | some gameState =>
    if gameState.gameStatus = "finished" then (mgr, .error "Game already finished")
    else if gameState.gameStatus = "playing" then (mgr, .error "Game already in progress")
    else if gameState.currency = "points" ∧ strTruthy walletAddress ∧
        ¬ db (walletAddress.getD "") then
      (mgr, .error "Insufficient points. You need 100 points to join this game.")
    else
      let mgr1 :=
        match mapGet mgr.playerGames playerId with
        | some oldGameId =>
          if oldGameId ≠ gameId then
            { mgr with playerGames := mapDelete mgr.playerGames playerId }
          else mgr
        | none => mgr
      match addPlayer gameState playerId socketId walletAddress with
      | .error e => (mgr1, .error e)
      | .ok (st0, pos) =>
        let st :=
          if gameState.currency = "sol" then
            { st0 with player2 := { st0.player2 with stakeDeposited := true } }
          else st0
        let pg := mapSet mgr1.playerGames playerId gameId
        let pg := if strTruthy st.player1.id then mapSet pg (st.player1.id.getD "") gameId else pg
        ({ mgr1 with games := mapSet mgr1.games gameId st, playerGames := pg },
         .ok { gameId := gameId, gameState := st, playerPosition := pos,
               gameStarted := decide (st.gameStatus = "playing") })

/-- Result object of `findRandomMatch` (spread of a join or create result,
plus the `gameStarted`/`inQueue` markers; absent JS fields are falsy). -/
structure FindResult where
  gameId : String
  gameState : GameState
  playerPosition : Option String
  gameStarted : Bool
  inQueue : Bool
deriving Repr, DecidableEq

/-- Tail of `findRandomMatch` (`gameManager.js` lines after both searches
miss): replace any queued ticket of this player, enqueue a fresh ticket, and
create a placeholder waiting game. -/
def GameManager.findEnqueue (mgr : GameManager) (playerId socketId : String)
    (stakeAmount : Rat) (currency : String) (walletAddress : Option String)
    (db : String → Bool) (freshId : String) (now : Int) :
    GameManager × Except String FindResult :=
  let queue := mgr.publicQueue.filter (fun p => p.playerId != playerId)
  let ticket : Ticket :=
    { playerId := playerId, socketId := socketId, stakeAmount := stakeAmount,
      currency := currency, walletAddress := walletAddress, queuedAt := now }
  let mgr1 := { mgr with publicQueue := queue ++ [ticket] }
  let (mgr2, cr) := mgr1.createGame "public" stakeAmount currency
      (some playerId) (some socketId) walletAddress none db freshId now
  match cr with
  | .ok c =>
    (mgr2, .ok { gameId := c.gameId, gameState := c.gameState,
                 playerPosition := c.playerPosition, gameStarted := false, inQueue := true })
  | .error _ => (mgr2, .error "Failed to enter matchmaking queue")

/-- Search stage of `findRandomMatch` (`gameManager.js`), entered after the
stale-map cleanup and the stake/currency normalisation: waiting-game search
(skipping the requester's own games), queue search (skipping the requester's
own tickets), then the enqueue tail. -/
def GameManager.findSearch (mgr1 : GameManager) (playerId socketId : String)
    (stakeAmount : Rat) (currency : String) (walletAddress : Option String)
    (db : String → Bool) (freshId1 freshId2 : String) (now : Int) :
    GameManager × Except String FindResult :=
  match mgr1.games.find? (fun e =>
      e.2.gameType == "public" && e.2.gameStatus == "waiting_for_player" &&
      e.2.stakeAmount == stakeAmount && e.2.currency == currency &&
      e.2.player1.id != some playerId) with
  | some (gameId, _) =>
    let (mgr2, jr) := mgr1.joinGame gameId playerId socketId walletAddress db
    (mgr2, jr.map (fun j =>
      { gameId := j.gameId, gameState := j.gameState,
        playerPosition := some j.playerPosition, gameStarted := j.gameStarted,
        inQueue := false }))
  | none =>
    match mgr1.publicQueue.find? (fun p =>
        p.playerId != playerId && p.stakeAmount == stakeAmount && p.currency == currency) with
    | some queuedPlayer =>
      let mgrA := { mgr1 with publicQueue :=
        mgr1.publicQueue.filter (fun p => p.playerId != queuedPlayer.playerId) }
      let (mgrB, cr) := mgrA.createGame "public" stakeAmount currency
          (some queuedPlayer.playerId) (some queuedPlayer.socketId)
          queuedPlayer.walletAddress none db freshId1 now
      match cr with
      | .ok c =>
        let (mgrC, jr) := mgrB.joinGame c.gameId playerId socketId walletAddress db
        match jr with
        | .ok j =>
          (mgrC, .ok { gameId := j.gameId, gameState := j.gameState,
                       playerPosition := some j.playerPosition, gameStarted := true,
                       inQueue := false })
        | .error _ =>
          mgrC.findEnqueue playerId socketId stakeAmount currency walletAddress db freshId2 now
      | .error _ =>
        mgrB.findEnqueue playerId socketId stakeAmount currency walletAddress db freshId2 now
    | none =>
      mgr1.findEnqueue playerId socketId stakeAmount currency walletAddress db freshId2 now

/-- `gameManager.js` `findRandomMatch`.  `db` stands for
`databaseService.hasEnoughPoints(·, 100)`; `freshId1`/`freshId2` for the
`uuidv4()` draws of the (at most two) `createGame` calls. -/
def GameManager.findRandomMatch (mgr : GameManager) (playerId socketId : String)
    (stakeAmount0 : Rat) (currency0 : String) (walletAddress : Option String)
    (db : String → Bool) (freshId1 freshId2 : String) (now : Int) :
    GameManager × Except String FindResult :=
  let mgr1 :=
    match mapGet mgr.playerGames playerId with
    | some existingGameId =>
      match mapGet mgr.games existingGameId with
      | some existingGame =>
        if existingGame.gameStatus ≠ "finished" then (mgr.removePlayer playerId).1 else mgr
      | none => mgr
    | none => mgr
  let stakeAmount1 := if currency0 = "points" then 100 else stakeAmount0
  let switchToSol :=
    currency0 = "points" ∧ strTruthy walletAddress ∧ ¬ db (walletAddress.getD "")
  let currency := if switchToSol then "sol" else currency0
  let stakeAmount : Rat := if switchToSol then 1/100 else stakeAmount1
  mgr1.findSearch playerId socketId stakeAmount currency walletAddress db freshId1 freshId2 now

/-- The matchmaking queue never holds two tickets for the same player. -/
def AtMostOneTicket (q : List Ticket) : Prop :=
  ∀ pid : String, (q.filter (fun t => t.playerId == pid)).length ≤ 1

/-- Result object of `submitMove`/`processRoundDirectly`. -/
structure SubmitResult where
  gameId : String
  gameState : GameState
  roundComplete : Bool
  roundResult : Option RoundResult
deriving Repr, DecidableEq

/-- Body of `gameManager.js` `submitMove` from the point where a `gameId` has
been resolved: validate the player really occupies a slot, apply
`processMove`, and flag a finished game for completion handling.  The JS
object is mutated in place, so the (possibly updated) state is stored back
even when `processMove` throws. -/
def GameManager.submitMoveCore (mgr : GameManager) (gameId playerId move : String)
    (now : Int) : GameManager × Except String SubmitResult :=
  match mapGet mgr.games gameId with
  | none => (mgr, .error "Game not found")
  | some gameState =>
    let isPlayer1 := gameState.player1.id = some playerId
    let isPlayer2 := gameState.player2.id = some playerId
    if ¬ isPlayer1 ∧ ¬ isPlayer2 then (mgr, .error "Player is not in this game")
    else
      let (st, r) := processMove gameState playerId move now
      match r with
      | .error e => ({ mgr with games := mapSet mgr.games gameId st }, .error e)
      | .ok out =>
        let st1 :=
          if (out.roundResult.map (·.gameFinished)).getD false = true then
            { out.gameState with readyForCompletion := true, completionData := out.roundResult }
          else out.gameState
        ({ mgr with games := mapSet mgr.games gameId st1 },
         .ok { gameId := gameId, gameState := st1, roundComplete := out.roundComplete,
               roundResult := out.roundResult })

/-- The three-stage fallback scan of `gameManager.js` `submitMove`, run when
the player is absent from `playerGames`: (1) the hinted game when it contains
the player and is in progress, (2) the newest in-progress game containing the
player, (3) the newest game of any status containing the player. -/
def submitMoveFallback (mgr : GameManager) (playerId : String)
    (requestedGameId : Option String) : Option String :=
  let priority1 : Option String :=
    if strTruthy requestedGameId then
      let rg := requestedGameId.getD ""
      match mapGet mgr.games rg with
      | some gs =>
        if (gs.player1.id = some playerId ∨ gs.player2.id = some playerId) ∧
            gs.gameStatus = "playing" then some rg
        else none
      | none => none
    else none
  match priority1 with
  | some rg => some rg
  | none =>
    match mgr.games.reverse.find? (fun e =>
        (e.2.player1.id == some playerId || e.2.player2.id == some playerId) &&
        e.2.gameStatus == "playing") with
    | some e => some e.1
    | none =>
      (mgr.games.reverse.find? (fun e =>
        e.2.player1.id == some playerId || e.2.player2.id == some playerId)).map (·.1)

/-- `gameManager.js` `submitMove`: primary lookup in `playerGames`, then the
fallback scan, repairing the player map on a hit. -/
def GameManager.submitMove (mgr : GameManager) (playerId move : String)
    (requestedGameId : Option String) (now : Int) :
    GameManager × Except String SubmitResult :=
  match mapGet mgr.playerGames playerId with
  | some gameId => mgr.submitMoveCore gameId playerId move now
  | none =>
    match submitMoveFallback mgr playerId requestedGameId with
    | none => (mgr, .error "Player not in any game")
    | some gameId =>
      let mgr1 := { mgr with playerGames := mapSet mgr.playerGames playerId gameId }
      mgr1.submitMoveCore gameId playerId move now

/-- `gameManager.js` `processRoundDirectly` (timeout path). -/
def GameManager.processRoundDirectly (mgr : GameManager) (gameId : String)
    (now : Int) : GameManager × Except String SubmitResult :=
  match mapGet mgr.games gameId with
  | none => (mgr, .error "Game not found")
  | some gameState =>
    if ¬ strTruthy gameState.player1.currentMove ∨
        ¬ strTruthy gameState.player2.currentMove then
      (mgr, .error "Both players must have moves to process round")
    else
      match processRound gameState now with
      | .ok out =>
        ({ mgr with games := mapSet mgr.games gameId out.gameState },
         .ok { gameId := gameId, gameState := out.gameState,
               roundComplete := out.roundComplete, roundResult := out.roundResult })
      | .error e => (mgr, .error e)

/-- `gameManager.js` `cleanupOldGames`: one pass over the games map marking
finished games older than `maxAge` and unconditionally deleting their
occupants' `playerGames` entries, then a second pass deleting the marked
games.  Timestamps are integer epoch milliseconds. -/
def cleanupStep (maxAge now : Int) (acc : List String × JsMap String)
    (e : String × GameState) : List String × JsMap String :=
  if e.2.gameStatus = "finished" ∧ now - e.2.createdAt > maxAge then
    let pg1 :=
      if strTruthy e.2.player1.id then mapDelete acc.2 (e.2.player1.id.getD "")
      else acc.2
    let pg2 :=
      if strTruthy e.2.player2.id then mapDelete pg1 (e.2.player2.id.getD "")
      else pg1
    (acc.1 ++ [e.1], pg2)
  else acc

def GameManager.cleanupOldGames (mgr : GameManager) (maxAge now : Int) :
    GameManager × Nat :=
  let res := mgr.games.foldl (cleanupStep maxAge now) ([], mgr.playerGames)
  ({ mgr with games := res.1.foldl mapDelete mgr.games, playerGames := res.2 },
   res.1.length)

/-- `socketHandlers.js` `startNextRound`: only for a still-playing match,
increment the round number and clear both moves and readiness flags. -/
def startNextRound (mgr : GameManager) (gameId : String) : GameManager :=
  match mapGet mgr.games gameId with
  | none => mgr
  | some g =>
    if g.gameStatus ≠ "playing" then mgr
    else
      let g1 := { g with
        currentRound := g.currentRound + 1,
        player1 := { g.player1 with currentMove := none, ready := false },
        player2 := { g.player2 with currentMove := none, ready := false } }
      { mgr with games := mapSet mgr.games gameId g1 }

/-- `socketHandlers.js` `handleTimeUp`, auto-move assignment phase.
`shuffled` stands for `[...moves].sort(() => Math.random() - 0.5)` — whatever
the random comparator does, `sort` returns a permutation of the array — and
`r1`, `r2` for the `Math.floor(Math.random() * moves.length)` draws.  Returns
the updated state and the `autoAssignedMoves` list. -/
def handleTimeUpAssign (g : GameState) (shuffled : List String) (r1 r2 : Fin 3) :
    GameState × List (String × String) :=
  let moves := VALID_MOVES
  let needs1 := ¬ strTruthy g.player1.currentMove ∧ strTruthy g.player1.id
  let needs2 := ¬ strTruthy g.player2.currentMove ∧ strTruthy g.player2.id
  if needs1 ∧ needs2 then
    let player1Move := shuffled.getD 0 ""
    let player2Move := shuffled.getD 1 ""
    let g1 := { g with
      player1 := { g.player1 with currentMove := some player1Move },
      player2 := { g.player2 with currentMove := some player2Move } }
    (g1, [(g.player1.id.getD "", player1Move), (g.player2.id.getD "", player2Move)])
  else
    let step1 : GameState × List (String × String) :=
      if needs1 then
        let m := moves.getD r1.val ""
        ({ g with player1 := { g.player1 with currentMove := some m } },
         [(g.player1.id.getD "", m)])
      else (g, [])
    let g1 := step1.1
    let step2 : GameState × List (String × String) :=
      if needs2 then
        let m := moves.getD r2.val ""
        ({ g1 with player2 := { g1.player2 with currentMove := some m } },
         [(g1.player2.id.getD "", m)])
      else (g1, [])
    (step2.1, step1.2 ++ step2.2)

/-- Flag logic of `socketHandlers.js` `handleGameFinished` together with the
guard of `gameManager.processGameCompletion`: run the completion body only
for a match with a (truthy) winner that is not yet `processed`, mark it
`processed`, and inside `processGameCompletion` run settlement only when
`completionProcessed` was still unset, marking it.  The returned flag is true
exactly when the settlement body is reached. -/
def handleGameFinishedFlags (g : GameState) : GameState × Bool :=
  if strTruthy g.winner ∧ g.processed = false then
    let g1 := { g with processed := true }
    if g1.completionProcessed then (g1, false)
    else ({ g1 with completionProcessed := true }, true)
  else (g, false)

/-- `socketHandlers.js` `handleGameFinished` acting on the manager: the game
object passed in is the one stored in the games map (aliased), so the flag
updates land there; afterwards both occupants are dropped from `playerGames`. -/
def handleGameFinished (mgr : GameManager) (gameId : String) : GameManager × Bool :=
  match mapGet mgr.games gameId with
  | none => (mgr, false)
  | some g =>
    let fr := handleGameFinishedFlags g
    let pg1 :=
      if strTruthy g.player1.id then mapDelete mgr.playerGames (g.player1.id.getD "")
      else mgr.playerGames
    let pg2 :=
      if strTruthy g.player2.id then mapDelete pg1 (g.player2.id.getD "")
      else pg1
    ({ mgr with games := mapSet mgr.games gameId fr.1, playerGames := pg2 }, fr.2)

/-- Iterated completion handling: the completion path runs once per trigger
(direct final move, timeout auto-move, repeated events); this folds `n`
triggers and counts how many times the settlement body is reached. -/
def iterateHandleGameFinished (mgr : GameManager) (gameId : String) :
    Nat → GameManager × Nat
  | 0 => (mgr, 0)
  | n + 1 =>
    let step := handleGameFinished mgr gameId
    let rest := iterateHandleGameFinished step.1 gameId n
    (rest.1, (if step.2 then 1 else 0) + rest.2)

/-- The method names defined in the `GameManager` class body
(`gameManager.js`).  `removeGame` is not among them. -/
def gameManagerMethods : List String :=
  ["constructor", "createGame", "joinGame", "findRandomMatch", "submitMove",
   "processGameCompletion", "processGameAbandonmentCompletion", "getGame",
   "getPlayerGame", "removePlayer", "processPointsRefund", "getStats",
   "cleanupOldGames", "processRoundDirectly"]

/-- JS `Map.get` key comparison (SameValueZero) between a string key of the
`games` map and a game-state object argument: a string never equals an
object, so the comparison is false for every entry. -/
def sameValueZeroStrObj (k : String) (g : GameState) : Bool := false

/-- `gameManager.js` `getGame` as the disconnect handler calls it, with the
game-state object `getPlayerGame` returned in place of an id
(`this.games.get(gameId) || null` where `gameId` holds the object): each
string key of the `Map` is compared to the object with SameValueZero. -/
def GameManager.getGameObjKey (mgr : GameManager) (k : GameState) :
    Option GameState :=
  (mgr.games.find? (fun e => sameValueZeroStrObj e.1 k)).map (·.2)

/-- The socket registries of `socketHandlers.js`. -/
structure SocketCtx where
  playerSockets : JsMap String
  socketPlayers : JsMap String
deriving Repr, DecidableEq

/-- `socketHandlers.js` disconnect handler.  It resolves the player of the
socket, calls `getPlayerGame` — which returns the game-state object, not an
id — and feeds that object to `getGame`; only if that lookup yielded a match
in progress would it schedule the 5000 ms deferred forfeit check, recorded
here as the returned flag.  The handler itself never mutates the manager:
its only synchronous effects are the two registry deletions. -/
def disconnectHandler (mgr : GameManager) (ctx : SocketCtx) (socketId : String) :
    GameManager × SocketCtx × Bool :=
  let playerIdOpt := mapGet ctx.socketPlayers socketId
  if strTruthy playerIdOpt then
    let playerId := playerIdOpt.getD ""
    let scheduled :=
      match mgr.getPlayerGame playerId with
      | none => false
      | some stateObj =>
        match mgr.getGameObjKey stateObj with
        | none => false
        | some game => game.gameStatus == "playing"
    (mgr,
     { playerSockets := mapDelete ctx.playerSockets playerId,
       socketPlayers := mapDelete ctx.socketPlayers socketId },
     scheduled)
  else (mgr, ctx, false)

/-- Round-number / win-count wellformedness of stored moves: any stored
current move is one of the three canonical values (the only values any code
path ever stores). -/
def MovesWF (g : GameState) : Prop :=
  (∀ m, g.player1.currentMove = some m → m ∈ VALID_MOVES) ∧
  (∀ m, g.player2.currentMove = some m → m ∈ VALID_MOVES)

/-- Order of the three match statuses along the allowed progression. -/
def statusRank (s : String) : Nat :=
  if s = "waiting_for_player" then 0 else if s = "playing" then 1
  else if s = "finished" then 2 else 0

theorem find?_append_single {α : Type} (m : JsMap α) (k : String) (v : α)
    (h : ∀ e ∈ m, (e.1 == k) = false) :
    (m ++ [(k, v)]).find? (fun e => e.1 == k) = some (k, v) := by
  induction m with
  | nil => simp
  | cons e t ih =>
    have he := h e (by simp)
    rw [List.cons_append, List.find?_cons_of_neg _ (by simp [he])]
    exact ih (fun x hx => h x (by simp [hx]))

theorem find?_map_replace {α : Type} (m : JsMap α) (k : String) (v : α)
    (h : m.any (fun e => e.1 == k) = true) :
    (m.map (fun e => if e.1 == k then (k, v) else e)).find? (fun e => e.1 == k) =
      some (k, v) := by
  induction m with
  | nil => simp at h
  | cons e t ih =>
    by_cases he : (e.1 == k) = true
    · rw [List.map_cons, if_pos he, List.find?_cons_of_pos _ (by simp)]
    · have h' : t.any (fun e => e.1 == k) = true := by
        simpa [he] using h
      rw [List.map_cons, if_neg (by simp [he]), List.find?_cons_of_neg _ (by simp [he])]
      exact ih h'

theorem mapGet_mapSet_self {α : Type} (m : JsMap α) (k : String) (v : α) :
    mapGet (mapSet m k v) k = some v := by
  unfold mapGet mapSet
  split_ifs with h
  · rw [find?_map_replace m k v h]
    rfl
  · rw [find?_append_single m k v]
    · rfl
    · intro e he
      by_contra hc
      exact h (List.any_eq_true.mpr ⟨e, he, by simpa using hc⟩)

theorem mapGet_mapSet_ne {α : Type} (m : JsMap α) (k k' : String) (v : α)
    (h : k' ≠ k) : mapGet (mapSet m k v) k' = mapGet m k' := by
  have hmap : ∀ (l : JsMap α),
      (l.map (fun e => if e.1 == k then (k, v) else e)).find? (fun e => e.1 == k') =
        l.find? (fun e => e.1 == k') := by
    intro l
    induction l with
    | nil => rfl
    | cons e t ih =>
      by_cases he : (e.1 == k) = true
      · have hek : e.1 = k := by simpa using he
        rw [List.map_cons, if_pos he,
          List.find?_cons_of_neg _ (by simp [Ne.symm h]),
          List.find?_cons_of_neg _ (by simp [hek, Ne.symm h]), ih]
      · rw [List.map_cons, if_neg he]
        by_cases hm : (e.1 == k') = true
        · rw [List.find?_cons_of_pos (p := fun (e : String × α) => e.1 == k') _ hm,
            List.find?_cons_of_pos (p := fun (e : String × α) => e.1 == k') _ hm]
        · rw [List.find?_cons_of_neg (p := fun (e : String × α) => e.1 == k') _ hm,
            List.find?_cons_of_neg (p := fun (e : String × α) => e.1 == k') _ hm, ih]
  have happ : (m ++ [(k, v)]).find? (fun e => e.1 == k') =
      m.find? (fun e => e.1 == k') := by
    induction m with
    | nil => simp [Ne.symm h]
    | cons e t ih =>
      by_cases hm : (e.1 == k') = true
      · rw [List.cons_append, List.find?_cons_of_pos (p := fun (e : String × α) => e.1 == k') _ hm,
          List.find?_cons_of_pos (p := fun (e : String × α) => e.1 == k') _ hm]
      · rw [List.cons_append, List.find?_cons_of_neg (p := fun (e : String × α) => e.1 == k') _ hm,
          List.find?_cons_of_neg (p := fun (e : String × α) => e.1 == k') _ hm, ih]
  unfold mapGet mapSet
  split_ifs with hany
  · rw [hmap]
  · rw [happ]

theorem mapGet_mapDelete_self {α : Type} (m : JsMap α) (k : String) :
    mapGet (mapDelete m k) k = none := by
  unfold mapGet mapDelete
  induction m with
  | nil => simp
  | cons e t ih =>
    by_cases he : (e.1 == k) = true
    · rw [List.filter_cons_of_neg (by simpa using he)]
      exact ih
    · rw [List.filter_cons_of_pos (by simpa using he),
        List.find?_cons_of_neg (p := fun (e : String × α) => e.1 == k) _ he]
      exact ih

theorem mapGet_mapDelete_ne {α : Type} (m : JsMap α) (k k' : String) (h : k' ≠ k) :
    mapGet (mapDelete m k) k' = mapGet m k' := by
  unfold mapGet mapDelete
  induction m with
  | nil => simp
  | cons e t ih =>
    by_cases he : (e.1 == k) = true
    · have hek : e.1 = k := by simpa using he
      rw [List.filter_cons_of_neg (by simpa using he),
        List.find?_cons_of_neg (p := fun (e : String × α) => e.1 == k') _
          (by simp [hek, Ne.symm h])]
      exact ih
    · rw [List.filter_cons_of_pos (by simpa using he)]
      by_cases hm : (e.1 == k') = true
      · rw [List.find?_cons_of_pos (p := fun (e : String × α) => e.1 == k') _ hm,
          List.find?_cons_of_pos (p := fun (e : String × α) => e.1 == k') _ hm]
      · rw [List.find?_cons_of_neg (p := fun (e : String × α) => e.1 == k') _ hm,
          List.find?_cons_of_neg (p := fun (e : String × α) => e.1 == k') _ hm]
        exact ih

theorem mapGet_eq_some_of_mem {α : Type} {m : JsMap α} {k : String} {v : α}
    (hwf : m.WF) (hmem : (k, v) ∈ m) : mapGet m k = some v := by
  unfold mapGet
  induction m with
  | nil => simp at hmem
  | cons e t ih =>
    rcases List.mem_cons.mp hmem with h | h
    · rw [← h, List.find?_cons_of_pos _ (by simp)]
      rfl
    · have hk : e.1 ≠ k := by
        intro hek
        have : k ∈ t.map (·.1) := List.mem_map.mpr ⟨(k, v), h, rfl⟩
        rw [JsMap.WF, List.map_cons, List.nodup_cons, hek] at hwf
        exact hwf.1 this
      rw [List.find?_cons_of_neg _ (by simp [hk])]
      exact ih (by rw [JsMap.WF, List.map_cons, List.nodup_cons] at hwf; exact hwf.2) h

/-- C2: for valid move pairs, `determineWinner` returns `draw` exactly on equal
moves, `player1` exactly on (rock,scissors), (scissors,paper), (paper,rock),
and `player2` otherwise; any pair with an invalid element raises the
invalid-move error. -/
theorem determineWinner_spec :
    (∀ move1 move2, move1 ∈ VALID_MOVES → move2 ∈ VALID_MOVES →
      ((determineWinner move1 move2 = .ok "draw" ↔ move1 = move2) ∧
       (determineWinner move1 move2 = .ok "player1" ↔
         ((move1, move2) = ("rock", "scissors") ∨ (move1, move2) = ("scissors", "paper") ∨
          (move1, move2) = ("paper", "rock"))) ∧
       (determineWinner move1 move2 = .ok "player2" ↔
         (move1 ≠ move2 ∧
          ¬((move1, move2) = ("rock", "scissors") ∨ (move1, move2) = ("scissors", "paper") ∨
            (move1, move2) = ("paper", "rock")))))) ∧
    (∀ move1 move2, move1 ∉ VALID_MOVES ∨ move2 ∉ VALID_MOVES →
      determineWinner move1 move2 = .error "Invalid move provided") := by
  constructor
  · intro move1 move2 h1 h2
    fin_cases h1 <;> fin_cases h2 <;>
      refine ⟨?_, ?_, ?_⟩ <;> simp [determineWinner, VALID_MOVES]
  · intro move1 move2 h
    unfold determineWinner
    rw [if_pos h]

/-- Witness for C2 at concrete inputs. -/
theorem determineWinner_spec_witness :
    determineWinner "rock" "scissors" = .ok "player1" ∧
    determineWinner "rock" "lizard" = .error "Invalid move provided" :=
  ⟨(determineWinner_spec.1 "rock" "scissors" (by simp [VALID_MOVES])
      (by simp [VALID_MOVES])).2.1.mpr (Or.inl rfl),
   determineWinner_spec.2 "rock" "lizard" (Or.inr (by simp [VALID_MOVES]))⟩

theorem startNextRound_of_get {mgr : GameManager} {gid : String} {gs : GameState}
    (hget : mapGet mgr.games gid = some gs) (hstat : gs.gameStatus = "playing") :
    startNextRound mgr gid =
      { mgr with games := mapSet mgr.games gid { gs with
          currentRound := gs.currentRound + 1,
          player1 := { gs.player1 with currentMove := none, ready := false },
          player2 := { gs.player2 with currentMove := none, ready := false } } } := by
  simp [startNextRound, hget, hstat]

theorem valid_move_ne_empty {m : String} (h : m ∈ VALID_MOVES) : m ≠ "" := by
  fin_cases h <;> simp

theorem determineWinner_ok_of_valid {m1 m2 : String}
    (h1 : m1 ∈ VALID_MOVES) (h2 : m2 ∈ VALID_MOVES) :
    ∃ w, determineWinner m1 m2 = .ok w := by
  fin_cases h1 <;> fin_cases h2 <;> exact ⟨_, rfl⟩

theorem determineWinner_ok_ne_draw {m1 m2 : String}
    (h1 : m1 ∈ VALID_MOVES) (h2 : m2 ∈ VALID_MOVES) (hne : m1 ≠ m2) :
    ∃ w, determineWinner m1 m2 = .ok w ∧ w ≠ "draw" := by
  fin_cases h1 <;> fin_cases h2 <;> simp_all <;> exact ⟨_, rfl, by simp⟩

theorem processRound_ok_spec (g : GameState) (now : Int) (m1 m2 w : String)
    (h1 : g.player1.currentMove = some m1) (h2 : g.player2.currentMove = some m2)
    (hw : determineWinner m1 m2 = .ok w) :
    ∃ out, processRound g now = .ok out ∧
      out.gameState.moveHistory = g.moveHistory ++
        [{ round := g.currentRound, player1Move := m1, player2Move := m2,
           winner := w, timestamp := now }] ∧
      out.gameState.player1.wins = g.player1.wins + (if w = "player1" then 1 else 0) ∧
      out.gameState.player2.wins = g.player2.wins + (if w = "player2" then 1 else 0) ∧
      out.gameState.player1.currentMove = some m1 ∧
      out.gameState.player2.currentMove = some m2 ∧
      out.gameState.currentRound = g.currentRound ∧
      (out.gameState.player1.wins ≥ WINNING_SCORE →
        out.gameState.gameStatus = "finished" ∧ out.gameState.winner = g.player1.id) ∧
      (out.gameState.player1.wins < WINNING_SCORE →
        out.gameState.player2.wins ≥ WINNING_SCORE →
        out.gameState.gameStatus = "finished" ∧ out.gameState.winner = g.player2.id) ∧
      (out.gameState.player1.wins < WINNING_SCORE →
        out.gameState.player2.wins < WINNING_SCORE →
        out.gameState.gameStatus = g.gameStatus ∧ out.gameState.winner = g.winner) ∧
      out.roundComplete = true := by
  simp only [processRound, h1, h2, hw]
  refine ⟨_, rfl, ?_⟩
  split_ifs <;> simp_all [WINNING_SCORE]

/-- C6: with both current moves set (and resolving to winner `w`),
`processRound` appends exactly one history entry tagged with the pre-existing
round number, increments only the winner's win count, finishes the match with
the scoring slot's identity exactly per the win-count checks, and leaves both
current moves and the round number untouched; clearing moves and advancing
the round number happen only in `startNextRound`, and only for a
still-playing match. -/
theorem processRound_appends_and_scores :
    (∀ (g : GameState) (now : Int) (m1 m2 w : String),
      g.player1.currentMove = some m1 → g.player2.currentMove = some m2 →
      determineWinner m1 m2 = .ok w →
      ∃ out, processRound g now = .ok out ∧
        out.gameState.moveHistory = g.moveHistory ++
          [{ round := g.currentRound, player1Move := m1, player2Move := m2,
             winner := w, timestamp := now }] ∧
        out.gameState.player1.wins = g.player1.wins + (if w = "player1" then 1 else 0) ∧
        out.gameState.player2.wins = g.player2.wins + (if w = "player2" then 1 else 0) ∧
        out.gameState.player1.currentMove = some m1 ∧
        out.gameState.player2.currentMove = some m2 ∧
        out.gameState.currentRound = g.currentRound ∧
        (out.gameState.player1.wins ≥ WINNING_SCORE →
          out.gameState.gameStatus = "finished" ∧ out.gameState.winner = g.player1.id) ∧
        (out.gameState.player1.wins < WINNING_SCORE →
          out.gameState.player2.wins ≥ WINNING_SCORE →
          out.gameState.gameStatus = "finished" ∧ out.gameState.winner = g.player2.id) ∧
        (out.gameState.player1.wins < WINNING_SCORE →
          out.gameState.player2.wins < WINNING_SCORE →
          out.gameState.gameStatus = g.gameStatus ∧ out.gameState.winner = g.winner)) ∧
    (∀ (mgr : GameManager) (gid : String) (gs : GameState),
      mapGet mgr.games gid = some gs →
      (gs.gameStatus = "playing" →
        ∃ gs1, mapGet (startNextRound mgr gid).games gid = some gs1 ∧
          gs1.currentRound = gs.currentRound + 1 ∧
          gs1.player1.currentMove = none ∧ gs1.player2.currentMove = none) ∧
      (gs.gameStatus ≠ "playing" → startNextRound mgr gid = mgr)) := by
  constructor
  · intro g now m1 m2 w h1 h2 hw
    obtain ⟨out, hok, hh, hw1, hw2, hm1, hm2, hr, hf1, hf2, hf3, _⟩ :=
      processRound_ok_spec g now m1 m2 w h1 h2 hw
    exact ⟨out, hok, hh, hw1, hw2, hm1, hm2, hr, hf1, hf2, hf3⟩
  · intro mgr gid gs hget
    constructor
    · intro hstat
      rw [startNextRound_of_get hget hstat]
      exact ⟨_, mapGet_mapSet_self _ _ _, rfl, rfl, rfl⟩
    · intro hstat
      simp [startNextRound, hget, hstat]

/-- Shared concrete fixture: player-1 slot occupied by `"p1"`. -/
def basePlayer1 : Player :=
  { id := some "p1", socketId := some "s1", wallet := some "w1", wins := 0,
    currentMove := none, ready := false, stakeDeposited := false }

/-- Shared concrete fixture: player-2 slot occupied by `"p2"`. -/
def basePlayer2 : Player :=
  { id := some "p2", socketId := some "s2", wallet := some "w2", wins := 0,
    currentMove := none, ready := false, stakeDeposited := false }

/-- Shared concrete fixture: an active points match with both moves in. -/
def gPlaying : GameState :=
  { createGameState "g1" "public" 100 "points" 0 with
    player1 := { basePlayer1 with currentMove := some "rock" },
    player2 := { basePlayer2 with currentMove := some "scissors" },
    gameStatus := "playing" }

/-- Witness for C6 at a concrete active match. -/
theorem processRound_appends_and_scores_witness :
    ∃ out, processRound gPlaying 7 = .ok out ∧
      out.gameState.player1.wins = gPlaying.player1.wins + 1 ∧
      out.gameState.currentRound = gPlaying.currentRound ∧
      out.gameState.player1.currentMove = some "rock" := by
  obtain ⟨out, hok, _, hw1, _, hm1, _, hr, _⟩ :=
    processRound_appends_and_scores.1 gPlaying 7 "rock" "scissors" "player1" rfl rfl rfl
  exact ⟨out, hok, by rw [hw1]; rfl, hr, hm1⟩

/-- Shared concrete fixture: an active match where only player 2 has moved. -/
def gC5 : GameState :=
  { createGameState "g5" "public" 100 "points" 0 with
    player1 := basePlayer1,
    player2 := { basePlayer2 with currentMove := some "scissors" },
    gameStatus := "playing" }

/-- C5: submitting through `processMove` always overwrites the mover's slot,
and the round resolves in that call (one new history entry, `roundComplete`)
exactly when the opponent's slot already held a move; `processRoundDirectly`
resolves exactly when both slots hold a move and fails otherwise. -/
theorem processMove_overwrite_and_resolution :
    (∀ (g : GameState) (p m : String) (now : Int),
      m ∈ VALID_MOVES → g.gameStatus = "playing" → MovesWF g →
      (g.player1.id = some p ∨ g.player2.id = some p) →
      ((g.player1.id = some p → (processMove g p m now).1.player1.currentMove = some m) ∧
       (g.player1.id ≠ some p → g.player2.id = some p →
         (processMove g p m now).1.player2.currentMove = some m) ∧
       ((∃ out, (processMove g p m now).2 = .ok out ∧ out.roundComplete = true ∧
           out.gameState.moveHistory.length = g.moveHistory.length + 1) ↔
         (if g.player1.id = some p then g.player2.currentMove
          else g.player1.currentMove) ≠ none))) ∧
    (∀ (mgr : GameManager) (gid : String) (gs : GameState) (now : Int),
      mapGet mgr.games gid = some gs → MovesWF gs →
      ((∃ out, (mgr.processRoundDirectly gid now).2 = .ok out ∧ out.roundComplete = true ∧
          out.gameState.moveHistory.length = gs.moveHistory.length + 1) ↔
        (gs.player1.currentMove ≠ none ∧ gs.player2.currentMove ≠ none)) ∧
      ((gs.player1.currentMove = none ∨ gs.player2.currentMove = none) →
        (mgr.processRoundDirectly gid now).2 =
          .error "Both players must have moves to process round")) := by
  constructor
  · intro g p m now hm hstat hwf hp
    have hmne : m ≠ "" := valid_move_ne_empty hm
    have hred : processMove g p m now =
        (let g1 := if g.player1.id = some p
           then { g with player1 := { g.player1 with currentMove := some m } }
           else { g with player2 := { g.player2 with currentMove := some m } }
         if strTruthy g1.player1.currentMove ∧ strTruthy g1.player2.currentMove then
           match processRound g1 now with
           | .ok out => (out.gameState, .ok out)
           | .error e => (g1, .error e)
         else (g1, .ok { gameState := g1, roundComplete := false, roundResult := none })) := by
      unfold processMove
      rw [if_neg (not_not_intro hm), if_neg (not_not_intro hstat),
        if_neg (by rintro ⟨hna, hnb⟩; rcases hp with h | h <;> contradiction)]
    by_cases hp1 : g.player1.id = some p
    · rw [if_pos hp1] at hred
      simp only [] at hred
      cases hopp : g.player2.currentMove with
      | none =>
        rw [hopp] at hred
        have hcond : ¬ (strTruthy (some m) ∧ strTruthy (none : Option String)) := by
          simp [strTruthy]
        rw [if_neg hcond] at hred
        rw [hred]
        refine ⟨fun _ => rfl, fun h _ => absurd hp1 h, ?_⟩
        rw [if_pos hp1]
        simp
      | some m2 =>
        have hm2 : m2 ∈ VALID_MOVES := hwf.2 m2 hopp
        rw [hopp] at hred
        have hcond : strTruthy (some m) ∧ strTruthy (some m2) := by
          simp [strTruthy, hmne, valid_move_ne_empty hm2]
        rw [if_pos hcond] at hred
        obtain ⟨w, hw⟩ := determineWinner_ok_of_valid hm hm2
        obtain ⟨out, hok, hh, _, _, hmm1, _, _, _, _, _, hrc⟩ :=
          processRound_ok_spec { g with player1 := { g.player1 with currentMove := some m } }
            now m m2 w rfl hopp hw
        rw [hok] at hred
        rw [hred]
        refine ⟨fun _ => hmm1, fun h _ => absurd hp1 h, ?_⟩
        rw [if_pos hp1]
        simp only [ne_eq, reduceCtorEq, not_false_eq_true, iff_true]
        exact ⟨out, rfl, hrc, by rw [hh]; simp⟩
    · have hp2 : g.player2.id = some p := by
        rcases hp with h | h
        · exact absurd h hp1
        · exact h
      rw [if_neg hp1] at hred
      simp only [] at hred
      cases hopp : g.player1.currentMove with
      | none =>
        rw [hopp] at hred
        have hcond : ¬ (strTruthy (none : Option String) ∧
            strTruthy (some m)) := by
          simp [strTruthy]
        rw [if_neg hcond] at hred
        rw [hred]
        refine ⟨fun h => absurd h hp1, fun _ _ => rfl, ?_⟩
        rw [if_neg hp1]
        simp
      | some m1 =>
        have hm1 : m1 ∈ VALID_MOVES := hwf.1 m1 hopp
        rw [hopp] at hred
        have hcond : strTruthy (some m1) ∧ strTruthy (some m) := by
          simp [strTruthy, hmne, valid_move_ne_empty hm1]
        rw [if_pos hcond] at hred
        obtain ⟨w, hw⟩ := determineWinner_ok_of_valid hm1 hm
        obtain ⟨out, hok, hh, _, _, _, hmm2, _, _, _, _, hrc⟩ :=
          processRound_ok_spec { g with player2 := { g.player2 with currentMove := some m } }
            now m1 m w hopp rfl hw
        rw [hok] at hred
        rw [hred]
        refine ⟨fun h => absurd h hp1, fun _ _ => hmm2, ?_⟩
        rw [if_neg hp1]
        simp only [ne_eq, reduceCtorEq, not_false_eq_true, iff_true]
        exact ⟨out, rfl, hrc, by rw [hh]; simp⟩
  · intro mgr gid gs now hget hwf
    constructor
    · constructor
      · rintro ⟨out, hok, hrc, hlen⟩
        simp only [GameManager.processRoundDirectly, hget] at hok
        by_cases hb : ¬ strTruthy gs.player1.currentMove ∨ ¬ strTruthy gs.player2.currentMove
        · rw [if_pos hb] at hok
          cases hok
        · rw [if_neg hb] at hok
          push_neg at hb
          cases h1 : gs.player1.currentMove with
          | none => simp [strTruthy, h1] at hb
          | some m1 =>
            cases h2 : gs.player2.currentMove with
            | none => simp [strTruthy, h2] at hb
            | some m2 => exact ⟨by simp [h1], by simp [h2]⟩
      · rintro ⟨h1, h2⟩
        cases hm1 : gs.player1.currentMove with
        | none => exact absurd hm1 h1
        | some m1 =>
          cases hm2 : gs.player2.currentMove with
          | none => exact absurd hm2 h2
          | some m2 =>
            have hv1 := hwf.1 m1 hm1
            have hv2 := hwf.2 m2 hm2
            obtain ⟨w, hw⟩ := determineWinner_ok_of_valid hv1 hv2
            obtain ⟨out, hok, hh, _, _, _, _, _, _, _, _, hrc⟩ :=
              processRound_ok_spec gs now m1 m2 w hm1 hm2 hw
            refine ⟨SubmitResult.mk gid out.gameState out.roundComplete out.roundResult,
              ?_, hrc, by rw [hh]; simp⟩
            simp only [GameManager.processRoundDirectly, hget]
            rw [if_neg (by
              simp [strTruthy, hm1, hm2, valid_move_ne_empty hv1, valid_move_ne_empty hv2]),
              hok]
    · intro hnone
      simp only [GameManager.processRoundDirectly, hget]
      rw [if_pos (by
        rcases hnone with h | h
        · exact Or.inl (by simp [strTruthy, h])
        · exact Or.inr (by simp [strTruthy, h]))]

/-- Witness for C5: in a concrete active match where player 2 has already
moved, player 1's submission overwrites their slot and resolves the round. -/
theorem processMove_overwrite_and_resolution_witness :
    (processMove gC5 "p1" "paper" 3).1.player1.currentMove = some "paper" ∧
    ∃ out, (processMove gC5 "p1" "paper" 3).2 = .ok out ∧ out.roundComplete = true ∧
      out.gameState.moveHistory.length = gC5.moveHistory.length + 1 := by
  have h := (processMove_overwrite_and_resolution.1 gC5 "p1" "paper" 3
    (by simp [VALID_MOVES]) rfl
    (by
      constructor
      · intro mv hmv
        simp [gC5, basePlayer1, createGameState] at hmv
      · intro mv hmv
        have hmv2 : "scissors" = mv := by
          simpa [gC5, basePlayer2, createGameState] using hmv
        simp [← hmv2, VALID_MOVES])
    (Or.inl rfl))
  exact ⟨h.1 rfl, h.2.2.mpr (by simp [gC5, basePlayer1, basePlayer2])⟩

theorem statusRank_le_two (s : String) : statusRank s ≤ 2 := by
  unfold statusRank
  split_ifs <;> omega

theorem statusRank_le_one_of_ne_finished {s : String} (h : s ≠ "finished") :
    statusRank s ≤ 1 := by
  unfold statusRank
  split_ifs <;> simp_all

theorem processRound_ok_inv {g : GameState} {now : Int} {out : MoveOutcome}
    (hok : processRound g now = .ok out) :
    ∃ m1 m2 w, g.player1.currentMove = some m1 ∧ g.player2.currentMove = some m2 ∧
      determineWinner m1 m2 = .ok w := by
  cases h1 : g.player1.currentMove with
  | none =>
    cases h2 : g.player2.currentMove with
    | none =>
      simp only [processRound, h1, h2] at hok
      exact Except.noConfusion hok
    | some m2 =>
      simp only [processRound, h1, h2] at hok
      exact Except.noConfusion hok
  | some m1 =>
    cases h2 : g.player2.currentMove with
    | none =>
      simp only [processRound, h1, h2] at hok
      exact Except.noConfusion hok
    | some m2 =>
      cases hw : determineWinner m1 m2 with
      | error e =>
        simp only [processRound, h1, h2, hw] at hok
        exact Except.noConfusion hok
      | ok w => exact ⟨m1, m2, w, rfl, rfl, hw⟩

theorem processRound_status_wins {g : GameState} {now : Int} {out : MoveOutcome}
    (hok : processRound g now = .ok out) :
    (out.gameState.gameStatus = "finished" ∨ out.gameState.gameStatus = g.gameStatus) ∧
    out.gameState.player1.wins ≤ g.player1.wins + 1 ∧
    out.gameState.player2.wins ≤ g.player2.wins + 1 ∧
    g.player1.wins ≤ out.gameState.player1.wins ∧
    g.player2.wins ≤ out.gameState.player2.wins ∧
    (g.gameStatus ≠ "finished" →
      (out.gameState.gameStatus = "finished" ↔
        out.gameState.player1.wins ≥ WINNING_SCORE ∨
        out.gameState.player2.wins ≥ WINNING_SCORE)) ∧
    (out.gameState.player1.wins ≥ WINNING_SCORE →
      out.gameState.gameStatus = "finished" ∧ out.gameState.winner = g.player1.id) ∧
    (out.gameState.player1.wins < WINNING_SCORE →
      out.gameState.player2.wins ≥ WINNING_SCORE →
      out.gameState.gameStatus = "finished" ∧ out.gameState.winner = g.player2.id) := by
  obtain ⟨m1, m2, w, h1, h2, hw⟩ := processRound_ok_inv hok
  obtain ⟨out2, hok2, hh, hw1, hw2, hm1, hm2, hr, hf1, hf2, hf3, _⟩ :=
    processRound_ok_spec g now m1 m2 w h1 h2 hw
  rw [hok2] at hok
  injection hok with heq
  subst heq
  refine ⟨?_, by rw [hw1]; split_ifs <;> omega, by rw [hw2]; split_ifs <;> omega,
    by rw [hw1]; omega, by rw [hw2]; omega, ?_, fun h => hf1 h, fun h h' => hf2 h h'⟩
  · by_cases hc1 : out2.gameState.player1.wins ≥ WINNING_SCORE
    · exact Or.inl (hf1 hc1).1
    · by_cases hc2 : out2.gameState.player2.wins ≥ WINNING_SCORE
      · exact Or.inl (hf2 (by omega) hc2).1
      · exact Or.inr ((hf3 (by omega) (by omega)).1)
  · intro hnf
    constructor
    · intro hfin
      by_contra hc
      push_neg at hc
      obtain ⟨hc1, hc2⟩ := hc
      have := (hf3 (by omega) (by omega)).1
      rw [hfin] at this
      exact hnf this.symm
    · rintro (h | h)
      · exact (hf1 h).1
      · by_cases hc1 : out2.gameState.player1.wins ≥ WINNING_SCORE
        · exact (hf1 hc1).1
        · exact (hf2 (by omega) h).1

/-- Shared concrete fixture: a finished match in which player 1 reached three
wins and, as the code never clears them, both current moves are still set. -/
def gFinished : GameState :=
  { createGameState "g1" "public" 100 "points" 0 with
    player1 := { basePlayer1 with wins := 3, currentMove := some "rock" },
    player2 := { basePlayer2 with wins := 1, currentMove := some "scissors" },
    gameStatus := "finished", winner := some "p1", currentRound := 4 }

/-- Shared concrete fixture: a manager holding only `gFinished`. -/
def mgrFinished : GameManager :=
  { games := [("g1", gFinished)], playerGames := [("p1", "g1"), ("p2", "g1")],
    publicQueue := [] }

/-- C1 counterexample: applying `processRoundDirectly` to a match that is
already finished with a slot at three wins succeeds (the function checks only
that both moves are present, not the status) and drives the win count to 4,
outside `{0,1,2,3}`; and applying `addPlayer` to a finished match with an
empty second slot drops the status back from `finished` to `playing`. -/
theorem winCount_exceeds_three_on_finished_match :
    (mgrFinished.processRoundDirectly "g1" 9).2.map (fun out => out.gameState.player1.wins) =
      .ok 4 ∧
    gFinished.player1.wins = 3 ∧ gFinished.gameStatus = "finished" ∧
    (addPlayer { gFinished with player2 := clearedPlayer } "p9" "s9" none).map
      (fun r => r.1.gameStatus) = .ok "playing" := by
  refine ⟨rfl, rfl, rfl, rfl⟩

/-- C1 as amended: status never regresses under `processMove`, `processRound`,
`processRoundDirectly` and `removePlayer` from any state, and under
`addPlayer` from any not-yet-finished state (the only states the manager
invokes it on, since `joinGame` rejects finished and in-progress matches);
win counts change only in `processRound`, which from a match whose counts are
at most 2 — as in every match that round processing is reachable for — keeps
both counts at most 3 and finishes the match with the scoring slot's identity
exactly when a count reaches 3. -/
theorem status_monotone_and_wins_bounded :
    (∀ (g : GameState) (p m : String) (now : Int),
      statusRank (processMove g p m now).1.gameStatus ≥ statusRank g.gameStatus) ∧
    (∀ (g : GameState) (now : Int) (out : MoveOutcome), processRound g now = .ok out →
      statusRank out.gameState.gameStatus ≥ statusRank g.gameStatus) ∧
    (∀ (mgr : GameManager) (gid gid' : String) (now : Int) (g g' : GameState),
      mapGet mgr.games gid' = some g →
      mapGet (mgr.processRoundDirectly gid now).1.games gid' = some g' →
      statusRank g'.gameStatus ≥ statusRank g.gameStatus) ∧
    (∀ (mgr : GameManager) (p gid' : String) (g g' : GameState),
      mapGet mgr.games gid' = some g →
      mapGet (mgr.removePlayer p).1.games gid' = some g' →
      statusRank g'.gameStatus ≥ statusRank g.gameStatus ∧
      g'.player1.wins ≤ g.player1.wins ∧ g'.player2.wins ≤ g.player2.wins) ∧
    (∀ (g : GameState) (p s : String) (w : Option String) (g2 : GameState)
      (pos : String), g.gameStatus ≠ "finished" → addPlayer g p s w = .ok (g2, pos) →
      statusRank g2.gameStatus ≥ statusRank g.gameStatus ∧
      g2.player1.wins = g.player1.wins ∧ g2.player2.wins = g.player2.wins) ∧
    (∀ (g : GameState) (now : Int) (out : MoveOutcome),
      g.player1.wins ≤ 2 → g.player2.wins ≤ 2 → processRound g now = .ok out →
      out.gameState.player1.wins ≤ 3 ∧ out.gameState.player2.wins ≤ 3 ∧
      (g.gameStatus ≠ "finished" →
        (out.gameState.gameStatus = "finished" ↔
          out.gameState.player1.wins = 3 ∨ out.gameState.player2.wins = 3)) ∧
      (out.gameState.player1.wins = 3 →
        out.gameState.gameStatus = "finished" ∧ out.gameState.winner = g.player1.id) ∧
      (out.gameState.player1.wins < 3 → out.gameState.player2.wins = 3 →
        out.gameState.gameStatus = "finished" ∧ out.gameState.winner = g.player2.id)) := by
  have hpr : ∀ (g : GameState) (now : Int) (out : MoveOutcome),
      processRound g now = .ok out →
      statusRank out.gameState.gameStatus ≥ statusRank g.gameStatus := by
    intro g now out hok
    rcases (processRound_status_wins hok).1 with h | h
    · rw [h]
      exact statusRank_le_two _
    · rw [h]
  have hpm : ∀ (g : GameState) (p m : String) (now : Int),
      (processMove g p m now).1.gameStatus = g.gameStatus ∨
      (processMove g p m now).1.gameStatus = "finished" := by
    intro g p m now
    unfold processMove
    simp only []
    split_ifs
    all_goals try exact Or.inl rfl
    all_goals
      split
      · rename_i out heq
        rcases (processRound_status_wins heq).1 with h | h
        · exact Or.inr h
        · exact Or.inl h
      · exact Or.inl rfl
  refine ⟨?_, hpr, ?_, ?_, ?_, ?_⟩
  · intro g p m now
    rcases hpm g p m now with h | h
    · rw [h]
    · rw [h]
      exact statusRank_le_two _
  · intro mgr gid gid' now g g' hg hg'
    unfold GameManager.processRoundDirectly at hg'
    cases hgs : mapGet mgr.games gid with
    | none =>
      rw [hgs] at hg'
      simp only [] at hg'
      rw [hg] at hg'
      cases hg'
      exact le_refl _
    | some gs =>
      rw [hgs] at hg'
      simp only [] at hg'
      split_ifs at hg' with hcond
      · rw [hg] at hg'
        cases hg'
        exact le_refl _
      · cases hprr : processRound gs now with
        | ok out =>
          rw [hprr] at hg'
          simp only [] at hg'
          by_cases hgid : gid' = gid
          · subst hgid
            rw [mapGet_mapSet_self] at hg'
            cases hg'
            rw [hg] at hgs
            cases hgs
            exact hpr _ now _ hprr
          · rw [mapGet_mapSet_ne _ _ _ _ hgid, hg] at hg'
            cases hg'
            exact le_refl _
        | error e =>
          rw [hprr] at hg'
          simp only [] at hg'
          rw [hg] at hg'
          cases hg'
          exact le_refl _
  · intro mgr p gid' g g' hg hg'
    unfold GameManager.removePlayer at hg'
    simp only [] at hg'
    cases hpg : mapGet mgr.playerGames p with
    | none =>
      rw [hpg] at hg'
      simp only [] at hg'
      rw [hg] at hg'
      cases hg'
      exact ⟨le_refl _, le_refl _, le_refl _⟩
    | some gid =>
      rw [hpg] at hg'
      simp only [] at hg'
      cases hgs : mapGet mgr.games gid with
      | none =>
        rw [hgs] at hg'
        simp only [] at hg'
        rw [hg] at hg'
        cases hg'
        exact ⟨le_refl _, le_refl _, le_refl _⟩
      | some gs =>
        rw [hgs] at hg'
        simp only [] at hg'
        by_cases hgid : gid' = gid
        · subst hgid
          rw [mapGet_mapSet_self] at hg'
          cases hg'
          rw [hg] at hgs
          cases hgs
          constructor
          · split_ifs <;>
              first
                | exact statusRank_le_two _
                | exact le_refl _
          · constructor <;> split_ifs <;> simp [clearedPlayer]
        · rw [mapGet_mapSet_ne _ _ _ _ hgid, hg] at hg'
          cases hg'
          exact ⟨le_refl _, le_refl _, le_refl _⟩
  · intro g p s w g2 pos hnf hok
    have hle1 := statusRank_le_one_of_ne_finished hnf
    unfold addPlayer at hok
    simp only [] at hok
    split_ifs at hok <;> cases hok <;>
      refine ⟨?_, rfl, rfl⟩ <;>
      first
        | exact le_refl _
        | exact le_trans hle1 (le_of_eq rfl)
  · intro g now out h1 h2 hok
    obtain ⟨_, hb1, hb2, hg1, hg2, hiff, hf1, hf2⟩ := processRound_status_wins hok
    refine ⟨by omega, by omega, ?_, ?_, ?_⟩
    · intro hnf
      rw [hiff hnf]
      unfold WINNING_SCORE
      omega
    · intro h3
      exact hf1 (by unfold WINNING_SCORE; omega)
    · intro h3 h4
      exact hf2 (by unfold WINNING_SCORE; omega) (by unfold WINNING_SCORE; omega)

/-- Shared concrete fixture: a 2-2 active match with both moves in. -/
def gDeuce : GameState :=
  { createGameState "g1" "public" 100 "points" 0 with
    player1 := { basePlayer1 with wins := 2, currentMove := some "rock" },
    player2 := { basePlayer2 with wins := 2, currentMove := some "scissors" },
    gameStatus := "playing" }

/-- Witness for the amended C1: one concrete scoring round from a 2-2 match
finishes it with the scorer as winner. -/
theorem status_monotone_and_wins_bounded_witness :
    ∃ out, processRound gDeuce 11 = .ok out ∧ out.gameState.player1.wins = 3 ∧
      out.gameState.gameStatus = "finished" ∧ out.gameState.winner = some "p1" := by
  have hspec := status_monotone_and_wins_bounded.2.2.2.2.2
  cases hok : processRound gDeuce 11 with
  | error e =>
    exfalso
    obtain ⟨w, hw⟩ := determineWinner_ok_of_valid
      (show "rock" ∈ VALID_MOVES by simp [VALID_MOVES])
      (show "scissors" ∈ VALID_MOVES by simp [VALID_MOVES])
    obtain ⟨out, hok2, _⟩ := processRound_ok_spec gDeuce 11 "rock" "scissors" w rfl rfl hw
    rw [hok] at hok2
    cases hok2
  | ok out =>
    have h := hspec gDeuce 11 out (by decide) (by decide) hok
    have hwin : out.gameState.player1.wins = 3 := by
      obtain ⟨m1, m2, w, hm1, hm2, hw⟩ := processRound_ok_inv hok
      obtain ⟨out2, hok2, _, hw1, _⟩ := processRound_ok_spec gDeuce 11 m1 m2 w hm1 hm2 hw
      rw [hok2] at hok
      cases hok
      cases hm1
      cases hm2
      have : w = "player1" := by
        have : determineWinner "rock" "scissors" = .ok "player1" := rfl
        rw [hw] at this
        cases this
        rfl
      rw [hw1, this]
      rfl
    have hfin := h.2.2.2.1 hwin
    exact ⟨out, rfl, hwin, hfin.1, hfin.2⟩

theorem processRound_preserves_flags {g : GameState} {now : Int} {out : MoveOutcome}
    (hok : processRound g now = .ok out) :
    out.gameState.processed = g.processed ∧
    out.gameState.completionProcessed = g.completionProcessed := by
  obtain ⟨m1, m2, w, h1, h2, hw⟩ := processRound_ok_inv hok
  simp only [processRound, h1, h2, hw] at hok
  injection hok with heq
  subst heq
  simp only []
  split_ifs <;> exact ⟨rfl, rfl⟩

theorem handleGameFinishedFlags_processed_true {g : GameState}
    (hp : g.processed = true) : handleGameFinishedFlags g = (g, false) := by
  unfold handleGameFinishedFlags
  rw [if_neg (by simp [hp])]

theorem handleGameFinished_persists {mgr : GameManager} {gid : String} {g : GameState}
    (hget : mapGet mgr.games gid = some g) (hp : g.processed = true) :
    (handleGameFinished mgr gid).2 = false ∧
    mapGet (handleGameFinished mgr gid).1.games gid = some g := by
  unfold handleGameFinished
  rw [hget]
  simp only [handleGameFinishedFlags_processed_true hp]
  exact ⟨by trivial, mapGet_mapSet_self _ _ _⟩

theorem handleGameFinishedFlags_cases (g : GameState) :
    (¬ (strTruthy g.winner = true ∧ g.processed = false) →
      handleGameFinishedFlags g = (g, false)) ∧
    ((strTruthy g.winner = true ∧ g.processed = false) → g.completionProcessed = true →
      handleGameFinishedFlags g = ({ g with processed := true }, false)) ∧
    ((strTruthy g.winner = true ∧ g.processed = false) →
      ¬ (g.completionProcessed = true) →
      handleGameFinishedFlags g =
        ({ g with processed := true, completionProcessed := true }, true)) := by
  refine ⟨?_, ?_, ?_⟩
  · intro h1
    unfold handleGameFinishedFlags
    rw [if_neg h1]
  · intro h1 h2
    unfold handleGameFinishedFlags
    rw [if_pos h1]
    simp only []
    rw [if_pos h2]
  · intro h1 h2
    unfold handleGameFinishedFlags
    rw [if_pos h1]
    simp only []
    rw [if_neg h2]

theorem handleGameFinishedFlags_snd_processed (g : GameState)
    (h : (handleGameFinishedFlags g).2 = true) :
    (handleGameFinishedFlags g).1.processed = true := by
  obtain ⟨hA, hB, hC⟩ := handleGameFinishedFlags_cases g
  by_cases h1 : strTruthy g.winner = true ∧ g.processed = false
  · by_cases h2 : g.completionProcessed = true
    · rw [hB h1 h2] at h
      simp at h
    · rw [hC h1 h2]
  · rw [hA h1] at h
    simp at h

theorem handleGameFinished_snd_true {mgr : GameManager} {gid : String}
    (h : (handleGameFinished mgr gid).2 = true) :
    ∃ g', mapGet (handleGameFinished mgr gid).1.games gid = some g' ∧
      g'.processed = true := by
  unfold handleGameFinished at h ⊢
  cases hget : mapGet mgr.games gid with
  | none =>
    rw [hget] at h
    simp at h
  | some g =>
    rw [hget] at h
    simp only [] at h ⊢
    exact ⟨(handleGameFinishedFlags g).1, mapGet_mapSet_self _ _ _,
      handleGameFinishedFlags_snd_processed g h⟩

theorem iterate_count_zero {gid : String} :
    ∀ (n : Nat) (mgr : GameManager) (g : GameState),
      mapGet mgr.games gid = some g → g.processed = true →
      (iterateHandleGameFinished mgr gid n).2 = 0 := by
  intro n
  induction n with
  | zero =>
    intro mgr g h hp
    rfl
  | succ k ih =>
    intro mgr g h hp
    obtain ⟨hf, hg⟩ := handleGameFinished_persists h hp
    have hrest := ih _ g hg hp
    simp [iterateHandleGameFinished, hf, hrest]

/-- C3: completion processing is at-most-once per match: however many times
the completion handler fires for a match — the direct-move path and the
timeout path both invoke the same `handleGameFinished` — the settlement body
is reached at most once; the `processed` flag, once true, stays true across
the handler, and none of the state-mutating game operations ever resets it. -/
theorem settlement_at_most_once :
    (∀ (mgr : GameManager) (gid : String) (n : Nat),
      (iterateHandleGameFinished mgr gid n).2 ≤ 1) ∧
    (∀ (mgr : GameManager) (gid : String) (g : GameState),
      mapGet mgr.games gid = some g → g.processed = true →
      (handleGameFinished mgr gid).2 = false ∧
      mapGet (handleGameFinished mgr gid).1.games gid = some g) ∧
    (∀ (g : GameState),
      ((handleGameFinishedFlags g).1.processed = true ↔
        (g.processed = true ∨ strTruthy g.winner = true)) ∧
      ((handleGameFinishedFlags g).2 = true →
        (handleGameFinishedFlags g).1.processed = true)) ∧
    (∀ (g : GameState) (p m : String) (now : Int),
      (processMove g p m now).1.processed = g.processed) ∧
    (∀ (g : GameState) (now : Int) (out : MoveOutcome), processRound g now = .ok out →
      out.gameState.processed = g.processed) ∧
    (∀ (g : GameState) (p s : String) (w : Option String) (g2 : GameState)
      (pos : String), addPlayer g p s w = .ok (g2, pos) →
      g2.processed = g.processed) := by
  refine ⟨?_, fun mgr gid g h hp => handleGameFinished_persists h hp, ?_, ?_,
    fun g now out hok => (processRound_preserves_flags hok).1, ?_⟩
  · intro mgr gid n
    induction n generalizing mgr with
    | zero => exact Nat.zero_le 1
    | succ k ih =>
      by_cases hs : (handleGameFinished mgr gid).2 = true
      · obtain ⟨g', hget', hp'⟩ := handleGameFinished_snd_true hs
        have hz := iterate_count_zero k _ g' hget' hp'
        simp [iterateHandleGameFinished, hs, hz]
      · have := ih (handleGameFinished mgr gid).1
        simpa [iterateHandleGameFinished, hs] using this
  · intro g
    obtain ⟨hA, hB, hC⟩ := handleGameFinishedFlags_cases g
    refine ⟨?_, fun h => handleGameFinishedFlags_snd_processed g h⟩
    by_cases h1 : strTruthy g.winner = true ∧ g.processed = false
    · by_cases h2 : g.completionProcessed = true
      · rw [hB h1 h2]
        simp [h1.1]
      · rw [hC h1 h2]
        simp [h1.1]
    · rw [hA h1]
      push_neg at h1
      constructor
      · exact fun hp => Or.inl hp
      · rintro (hp | hw)
        · exact hp
        · simpa using h1 hw
  · intro g p m now
    unfold processMove
    simp only []
    split_ifs
    all_goals try rfl
    all_goals
      split
      · rename_i out heq
        exact (processRound_preserves_flags heq).1
      · rfl
  · intro g p s w g2 pos hok
    unfold addPlayer at hok
    simp only [] at hok
    split_ifs at hok <;> cases hok <;> rfl

/-- Shared concrete fixture: `gFinished` already marked `processed`. -/
def gProcessed : GameState := { gFinished with processed := true }

/-- Shared concrete fixture: a manager holding only `gProcessed`. -/
def mgrProcessed : GameManager :=
  { games := [("g1", gProcessed)], playerGames := [], publicQueue := [] }

/-- Witness for C3: three completion triggers on a concrete finished match
settle at most once, and on an already-processed match the handler fires
nothing and keeps the flag. -/
theorem settlement_at_most_once_witness :
    (iterateHandleGameFinished mgrFinished "g1" 3).2 ≤ 1 ∧
    (handleGameFinished mgrProcessed "g1").2 = false ∧
    mapGet (handleGameFinished mgrProcessed "g1").1.games "g1" = some gProcessed :=
  ⟨settlement_at_most_once.1 mgrFinished "g1" 3,
   (settlement_at_most_once.2.1 mgrProcessed "g1" gProcessed rfl rfl).1,
   (settlement_at_most_once.2.1 mgrProcessed "g1" gProcessed rfl rfl).2⟩

/-- C7: on timer expiry, when both occupied slots lack a move the two
auto-assigned moves are the first two entries of a permutation of the three
valid moves (what the random-comparator `sort` yields), hence distinct, and
the auto-resolved round can never be a draw; when exactly one occupied slot
lacks a move, exactly one randomly drawn valid move is assigned to that slot
and the other slot is untouched. -/
theorem handleTimeUp_distinct_moves :
    ∀ (g : GameState) (shuffled : List String) (r1 r2 : Fin 3),
      shuffled.Perm VALID_MOVES →
      (((¬ strTruthy g.player1.currentMove ∧ strTruthy g.player1.id) ∧
        (¬ strTruthy g.player2.currentMove ∧ strTruthy g.player2.id)) →
        ∃ m1 m2, (handleTimeUpAssign g shuffled r1 r2).1.player1.currentMove = some m1 ∧
          (handleTimeUpAssign g shuffled r1 r2).1.player2.currentMove = some m2 ∧
          m1 ∈ VALID_MOVES ∧ m2 ∈ VALID_MOVES ∧ m1 ≠ m2 ∧
          (∃ w, determineWinner m1 m2 = .ok w ∧ w ≠ "draw") ∧
          (handleTimeUpAssign g shuffled r1 r2).2 =
            [(g.player1.id.getD "", m1), (g.player2.id.getD "", m2)]) ∧
      (((¬ strTruthy g.player1.currentMove ∧ strTruthy g.player1.id) ∧
        ¬ ((¬ strTruthy g.player2.currentMove ∧ strTruthy g.player2.id))) →
        (handleTimeUpAssign g shuffled r1 r2).1.player1.currentMove =
          some (VALID_MOVES.getD r1.val "") ∧
        VALID_MOVES.getD r1.val "" ∈ VALID_MOVES ∧
        (handleTimeUpAssign g shuffled r1 r2).1.player2 = g.player2 ∧
        (handleTimeUpAssign g shuffled r1 r2).2 =
          [(g.player1.id.getD "", VALID_MOVES.getD r1.val "")]) ∧
      ((¬ ((¬ strTruthy g.player1.currentMove ∧ strTruthy g.player1.id)) ∧
        (¬ strTruthy g.player2.currentMove ∧ strTruthy g.player2.id)) →
        (handleTimeUpAssign g shuffled r1 r2).1.player2.currentMove =
          some (VALID_MOVES.getD r2.val "") ∧
        VALID_MOVES.getD r2.val "" ∈ VALID_MOVES ∧
        (handleTimeUpAssign g shuffled r1 r2).1.player1 = g.player1 ∧
        (handleTimeUpAssign g shuffled r1 r2).2 =
          [(g.player2.id.getD "", VALID_MOVES.getD r2.val "")]) ∧
      ((¬ ((¬ strTruthy g.player1.currentMove ∧ strTruthy g.player1.id)) ∧
        ¬ ((¬ strTruthy g.player2.currentMove ∧ strTruthy g.player2.id))) →
        handleTimeUpAssign g shuffled r1 r2 = (g, [])) := by
  intro g shuffled r1 r2 hperm
  have hr1 : VALID_MOVES.getD r1.val "" ∈ VALID_MOVES := by
    rcases r1 with ⟨i, hi⟩
    interval_cases i <;> simp [VALID_MOVES]
  have hr2 : VALID_MOVES.getD r2.val "" ∈ VALID_MOVES := by
    rcases r2 with ⟨i, hi⟩
    interval_cases i <;> simp [VALID_MOVES]
  refine ⟨?_, ?_, ?_, ?_⟩
  · rintro ⟨hn1, hn2⟩
    have hlen : shuffled.length = 3 := hperm.length_eq
    rcases shuffled with _ | ⟨a, _ | ⟨b, _ | ⟨c, rest⟩⟩⟩
    · simp at hlen
    · simp at hlen
    · simp at hlen
    · rcases rest with _ | ⟨d, t⟩
      · have hnd : ([a, b, c] : List String).Nodup := by
          refine hperm.symm.nodup ?_
          simp [VALID_MOVES]
        have hab : a ≠ b := by
          simp only [List.nodup_cons, List.mem_cons] at hnd
          intro hc
          exact hnd.1 (Or.inl hc)
        have ha : a ∈ VALID_MOVES := hperm.mem_iff.mp (by simp)
        have hb : b ∈ VALID_MOVES := hperm.mem_iff.mp (by simp)
        refine ⟨a, b, ?_, ?_, ha, hb, hab, determineWinner_ok_ne_draw ha hb hab, ?_⟩ <;>
          · unfold handleTimeUpAssign
            rw [if_pos ⟨hn1, hn2⟩]
            rfl
      · simp at hlen
  · rintro ⟨hn1, hn2⟩
    refine ⟨?_, hr1, ?_, ?_⟩ <;>
      · unfold handleTimeUpAssign
        rw [if_neg (by rintro ⟨x, y⟩; exact hn2 y)]
        simp only []
        rw [if_pos hn1, if_neg hn2]
        try rfl
  · rintro ⟨hn1, hn2⟩
    refine ⟨?_, hr2, ?_, ?_⟩ <;>
      · unfold handleTimeUpAssign
        rw [if_neg (by rintro ⟨x, y⟩; exact hn1 x)]
        simp only []
        rw [if_neg hn1, if_pos hn2]
        try rfl
  · rintro ⟨hn1, hn2⟩
    unfold handleTimeUpAssign
    rw [if_neg (by rintro ⟨x, y⟩; exact hn1 x)]
    simp only []
    rw [if_neg hn1, if_neg hn2]
    rfl

/-- Shared concrete fixture: an active match where neither player has moved. -/
def gNoMoves : GameState :=
  { createGameState "g1" "public" 100 "points" 0 with
    player1 := basePlayer1, player2 := basePlayer2, gameStatus := "playing" }

/-- Witness for C7: a concrete double timeout with a concrete shuffle yields
two distinct valid moves and a non-draw resolution. -/
theorem handleTimeUp_distinct_moves_witness :
    ∃ m1 m2, (handleTimeUpAssign gNoMoves ["paper", "rock", "scissors"] 0 2).1.player1.currentMove = some m1 ∧
      (handleTimeUpAssign gNoMoves ["paper", "rock", "scissors"] 0 2).1.player2.currentMove = some m2 ∧
      m1 ∈ VALID_MOVES ∧ m2 ∈ VALID_MOVES ∧ m1 ≠ m2 ∧
      (∃ w, determineWinner m1 m2 = .ok w ∧ w ≠ "draw") ∧
      (handleTimeUpAssign gNoMoves ["paper", "rock", "scissors"] 0 2).2 =
        [(gNoMoves.player1.id.getD "", m1), (gNoMoves.player2.id.getD "", m2)] :=
  (handleTimeUp_distinct_moves gNoMoves ["paper", "rock", "scissors"] 0 2
    (by decide)).1 (by constructor <;> exact ⟨by simp [gNoMoves, basePlayer1, basePlayer2, strTruthy], by simp [gNoMoves, basePlayer1, basePlayer2, strTruthy]⟩)

theorem getGameObjKey_none (mgr : GameManager) (gs : GameState) :
    mgr.getGameObjKey gs = none := by
  simp only [GameManager.getGameObjKey, sameValueZeroStrObj]
  rw [Option.map_eq_none', List.find?_eq_none]
  intro x hx
  exact fun hc => Bool.noConfusion hc

/-- Concrete fixture for C4: an active match with both players mapped. -/
def mgrC4 : GameManager :=
  { games := [("g1", gPlaying)], playerGames := [("p1", "g1"), ("p2", "g1")],
    publicQueue := [] }

/-- Concrete fixture for C4: the socket registries after both players
connected. -/
def ctxC4 : SocketCtx :=
  { playerSockets := [("p1", "s1"), ("p2", "s2")],
    socketPlayers := [("s1", "p1"), ("s2", "p2")] }

/-- C4 (code defect): the claimed forfeit flow is dead code.  `getPlayerGame`
returns the game-state object rather than an id; the disconnect handler
passes that object to `getGame`, whose string-keyed `Map` lookup therefore
misses for every stored match, so its guard fails and the 5-second deferred
forfeit check is never scheduled: no opponent is ever declared winner and the
match never moves to finished, whether or not the player reconnects — and
the handler leaves the manager untouched, so an active match stays `playing`
with no winner.  (Independently, the dead callback's cleanup line names
`gameManager.removeGame`, a method the class never defines.) -/
theorem disconnect_forfeit_dead_code :
    (∀ (mgr : GameManager) (gs : GameState), mgr.getGameObjKey gs = none) ∧
    (∀ (mgr : GameManager) (ctx : SocketCtx) (sid : String),
      (disconnectHandler mgr ctx sid).2.2 = false ∧
      (disconnectHandler mgr ctx sid).1 = mgr) ∧
    "removeGame" ∉ gameManagerMethods ∧
    (disconnectHandler mgrC4 ctxC4 "s1").2.2 = false ∧
    mapGet (disconnectHandler mgrC4 ctxC4 "s1").1.games "g1" = some gPlaying ∧
    gPlaying.gameStatus = "playing" ∧
    gPlaying.winner = none := by
  refine ⟨getGameObjKey_none, ?_, by decide, rfl, rfl, rfl, rfl⟩
  intro mgr ctx sid
  unfold disconnectHandler
  simp only []
  split_ifs with ht
  · refine ⟨?_, rfl⟩
    cases h2 : mgr.getPlayerGame ((mapGet ctx.socketPlayers sid).getD "") with
    | none => rfl
    | some stateObj =>
      simp only []
      rw [getGameObjKey_none]
  · exact ⟨rfl, rfl⟩

theorem foldl_mapDelete_get {α : Type} :
    ∀ (keys : List String) (m : JsMap α) (k : String),
      mapGet (keys.foldl mapDelete m) k = if k ∈ keys then none else mapGet m k := by
  intro keys
  induction keys with
  | nil =>
    intro m k
    simp
  | cons k0 t ih =>
    intro m k
    rw [List.foldl_cons, ih]
    by_cases hk : k = k0
    · subst hk
      simp [mapGet_mapDelete_self]
    · rw [mapGet_mapDelete_ne _ _ _ hk]
      by_cases ht : k ∈ t <;> simp [ht, hk]

theorem mapGet_mapDelete_none {α : Type} (m : JsMap α) (k pid : String)
    (h : mapGet m pid = none) : mapGet (mapDelete m k) pid = none := by
  by_cases hk : pid = k
  · subst hk
    exact mapGet_mapDelete_self _ _
  · rw [mapGet_mapDelete_ne _ _ _ hk]
    exact h

theorem cleanupStep_pos (maxAge now : Int) (e : String × GameState)
    (h : e.2.gameStatus = "finished" ∧ now - e.2.createdAt > maxAge)
    (tr : List String) (pg : JsMap String) :
    cleanupStep maxAge now (tr, pg) e =
      (tr ++ [e.1],
        if strTruthy e.2.player2.id then
          mapDelete (if strTruthy e.2.player1.id then
              mapDelete pg (e.2.player1.id.getD "") else pg) (e.2.player2.id.getD "")
        else (if strTruthy e.2.player1.id then
          mapDelete pg (e.2.player1.id.getD "") else pg)) := by
  unfold cleanupStep
  rw [if_pos h]

theorem cleanupStep_neg (maxAge now : Int) (e : String × GameState)
    (h : ¬ (e.2.gameStatus = "finished" ∧ now - e.2.createdAt > maxAge))
    (tr : List String) (pg : JsMap String) :
    cleanupStep maxAge now (tr, pg) e = (tr, pg) := by
  unfold cleanupStep
  rw [if_neg h]

theorem cleanup_fold_fst (maxAge now : Int) :
    ∀ (games : JsMap GameState) (tr : List String) (pg : JsMap String),
      (games.foldl (cleanupStep maxAge now) (tr, pg)).1 =
        tr ++ (games.filter (fun e =>
          decide (e.2.gameStatus = "finished" ∧ now - e.2.createdAt > maxAge))).map (·.1) := by
  intro games
  induction games with
  | nil =>
    intro tr pg
    simp
  | cons e t ih =>
    intro tr pg
    rw [List.foldl_cons]
    by_cases h : e.2.gameStatus = "finished" ∧ now - e.2.createdAt > maxAge
    · rw [cleanupStep_pos maxAge now e h tr pg, ih,
        List.filter_cons_of_pos (by simpa using h)]
      simp
    · rw [cleanupStep_neg maxAge now e h tr pg, ih,
        List.filter_cons_of_neg (by simpa using h)]

theorem cleanup_none_preserved (maxAge now : Int) :
    ∀ (games : JsMap GameState) (tr : List String) (pg : JsMap String) (pid : String),
      mapGet pg pid = none →
      mapGet (games.foldl (cleanupStep maxAge now) (tr, pg)).2 pid = none := by
  intro games
  induction games with
  | nil =>
    intro tr pg pid h
    exact h
  | cons e t ih =>
    intro tr pg pid h
    rw [List.foldl_cons]
    by_cases hexp : e.2.gameStatus = "finished" ∧ now - e.2.createdAt > maxAge
    · rw [cleanupStep_pos maxAge now e hexp tr pg]
      refine ih _ _ _ ?_
      split_ifs <;>
        first
          | exact h
          | exact mapGet_mapDelete_none _ _ _ h
          | exact mapGet_mapDelete_none _ _ _ (mapGet_mapDelete_none _ _ _ h)
    · rw [cleanupStep_neg maxAge now e hexp tr pg]
      exact ih _ _ _ h

theorem cleanup_occupant_deleted (maxAge now : Int) :
    ∀ (games : JsMap GameState) (tr : List String) (pg : JsMap String)
      (pid gid : String) (g : GameState), (gid, g) ∈ games →
      (g.gameStatus = "finished" ∧ now - g.createdAt > maxAge) →
      ((g.player1.id = some pid ∧ pid ≠ "") ∨ (g.player2.id = some pid ∧ pid ≠ "")) →
      mapGet (games.foldl (cleanupStep maxAge now) (tr, pg)).2 pid = none := by
  intro games
  induction games with
  | nil =>
    intro tr pg pid gid g hmem
    simp at hmem
  | cons e t ih =>
    intro tr pg pid gid g hmem hexp hocc
    rcases List.mem_cons.mp hmem with heq | hmem'
    · have he2 : e.2 = g := by rw [← heq]
      rw [List.foldl_cons,
        cleanupStep_pos maxAge now e (by rw [he2]; exact hexp) tr pg]
      apply cleanup_none_preserved
      rcases hocc with ⟨hid, hne⟩ | ⟨hid, hne⟩
      · have h1 : strTruthy e.2.player1.id = true := by
          rw [he2, hid]
          simp [strTruthy, hne]
        have hkey : e.2.player1.id.getD "" = pid := by rw [he2, hid]; rfl
        rw [if_pos h1, hkey]
        split_ifs
        · exact mapGet_mapDelete_none _ _ _ (mapGet_mapDelete_self _ _)
        · exact mapGet_mapDelete_self _ _
      · have h2 : strTruthy e.2.player2.id = true := by
          rw [he2, hid]
          simp [strTruthy, hne]
        have hkey : e.2.player2.id.getD "" = pid := by rw [he2, hid]; rfl
        rw [if_pos h2, hkey]
        exact mapGet_mapDelete_self _ _
    · rw [List.foldl_cons]
      by_cases hexp2 : e.2.gameStatus = "finished" ∧ now - e.2.createdAt > maxAge
      · rw [cleanupStep_pos maxAge now e hexp2 tr pg]
        exact ih _ _ _ gid g hmem' hexp hocc
      · rw [cleanupStep_neg maxAge now e hexp2 tr pg]
        exact ih _ _ _ gid g hmem' hexp hocc

theorem cleanup_frame (maxAge now : Int) :
    ∀ (games : JsMap GameState) (tr : List String) (pg : JsMap String) (pid : String),
      (∀ (gid : String) (g : GameState), (gid, g) ∈ games →
        (g.gameStatus = "finished" ∧ now - g.createdAt > maxAge) →
        ¬ ((g.player1.id = some pid ∧ pid ≠ "") ∨ (g.player2.id = some pid ∧ pid ≠ ""))) →
      mapGet (games.foldl (cleanupStep maxAge now) (tr, pg)).2 pid = mapGet pg pid := by
  intro games
  induction games with
  | nil =>
    intro tr pg pid hno
    rfl
  | cons e t ih =>
    intro tr pg pid hno
    rw [List.foldl_cons]
    by_cases hexp : e.2.gameStatus = "finished" ∧ now - e.2.createdAt > maxAge
    · rw [cleanupStep_pos maxAge now e hexp tr pg,
        ih _ _ _ (fun gid g hm => hno gid g (List.mem_cons_of_mem _ hm))]
      have hno1 := hno e.1 e.2 (List.mem_cons_self _ _) hexp
      push_neg at hno1
      obtain ⟨hnp1, hnp2⟩ := hno1
      have hne1 : strTruthy e.2.player1.id = true → pid ≠ e.2.player1.id.getD "" := by
        intro h1 hk
        cases hv : e.2.player1.id with
        | none =>
          rw [hv] at h1
          simp [strTruthy] at h1
        | some v =>
          rw [hv] at h1 hk
          simp only [strTruthy, decide_eq_true_eq] at h1
          simp only [Option.getD_some] at hk
          exact h1 (hk.symm.trans (hnp1 (by rw [hv, hk])))
      have hne2 : strTruthy e.2.player2.id = true → pid ≠ e.2.player2.id.getD "" := by
        intro h2 hk
        cases hv : e.2.player2.id with
        | none =>
          rw [hv] at h2
          simp [strTruthy] at h2
        | some v =>
          rw [hv] at h2 hk
          simp only [strTruthy, decide_eq_true_eq] at h2
          simp only [Option.getD_some] at hk
          exact h2 (hk.symm.trans (hnp2 (by rw [hv, hk])))
      split_ifs with h2 h1 h3
      · rw [mapGet_mapDelete_ne _ _ _ (hne2 h2), mapGet_mapDelete_ne _ _ _ (hne1 h1)]
      · rw [mapGet_mapDelete_ne _ _ _ (hne2 h2)]
      · rw [mapGet_mapDelete_ne _ _ _ (hne1 h3)]
      · rfl
    · rw [cleanupStep_neg maxAge now e hexp tr pg]
      exact ih _ _ _ (fun gid g hm => hno gid g (List.mem_cons_of_mem _ hm))

theorem mem_of_mapGet_eq_some {α : Type} {m : JsMap α} {k : String} {v : α}
    (h : mapGet m k = some v) : (k, v) ∈ m := by
  unfold mapGet at h
  cases hf : m.find? (fun e => e.1 == k) with
  | none =>
    rw [hf] at h
    cases h
  | some e =>
    rw [hf] at h
    have hmem := List.mem_of_find?_eq_some hf
    have hk : e.1 = k := by simpa using List.find?_some hf
    injection h with h2
    cases e
    cases hk
    cases h2
    exact hmem

/-- C10: a sweep removes exactly the finished games older than `maxAge`, and
for each removed game it deletes the `playerGames` entries keyed by that
game's occupant ids unconditionally — without checking where the entry
points — so a player occupying a removed game loses their mapping even when
it points at a different, still-live match; entries of players occupying no
removed game are untouched. -/
theorem cleanupOldGames_spec :
    ∀ (mgr : GameManager) (maxAge now : Int), mgr.games.WF →
      (∀ (gid : String) (g : GameState), mapGet mgr.games gid = some g →
        mapGet (mgr.cleanupOldGames maxAge now).1.games gid =
          (if g.gameStatus = "finished" ∧ now - g.createdAt > maxAge then none
           else some g)) ∧
      (∀ gid, mapGet mgr.games gid = none →
        mapGet (mgr.cleanupOldGames maxAge now).1.games gid = none) ∧
      (∀ (pid gid : String) (g : GameState), (gid, g) ∈ mgr.games →
        (g.gameStatus = "finished" ∧ now - g.createdAt > maxAge) →
        ((g.player1.id = some pid ∧ pid ≠ "") ∨ (g.player2.id = some pid ∧ pid ≠ "")) →
        mapGet (mgr.cleanupOldGames maxAge now).1.playerGames pid = none) ∧
      (∀ pid : String, (∀ (gid : String) (g : GameState), (gid, g) ∈ mgr.games →
          (g.gameStatus = "finished" ∧ now - g.createdAt > maxAge) →
          ¬ ((g.player1.id = some pid ∧ pid ≠ "") ∨
             (g.player2.id = some pid ∧ pid ≠ ""))) →
        mapGet (mgr.cleanupOldGames maxAge now).1.playerGames pid =
          mapGet mgr.playerGames pid) ∧
      (mgr.cleanupOldGames maxAge now).2 =
        (mgr.games.filter (fun e =>
          decide (e.2.gameStatus = "finished" ∧ now - e.2.createdAt > maxAge))).length := by
  intro mgr maxAge now hwf
  have hgames : ∀ gid : String,
      mapGet (mgr.cleanupOldGames maxAge now).1.games gid =
        (if gid ∈ (mgr.games.filter (fun e =>
            decide (e.2.gameStatus = "finished" ∧ now - e.2.createdAt > maxAge))).map (·.1)
         then none else mapGet mgr.games gid) := by
    intro gid
    unfold GameManager.cleanupOldGames
    simp only []
    rw [foldl_mapDelete_get, cleanup_fold_fst]
    simp
  refine ⟨?_, ?_, ?_, ?_, ?_⟩
  · intro gid g hget
    rw [hgames gid]
    by_cases hexp : g.gameStatus = "finished" ∧ now - g.createdAt > maxAge
    · rw [if_pos hexp, if_pos ?_]
      exact List.mem_map.mpr ⟨(gid, g),
        List.mem_filter.mpr ⟨mem_of_mapGet_eq_some hget, by simpa using hexp⟩, rfl⟩
    · rw [if_neg hexp, if_neg ?_, hget]
      intro hmem
      obtain ⟨e, hef, he1⟩ := List.mem_map.mp hmem
      have hef2 := List.mem_filter.mp hef
      have : mapGet mgr.games e.1 = some e.2 := by
        cases e
        exact mapGet_eq_some_of_mem hwf hef2.1
      rw [he1, hget] at this
      injection this with hgg
      subst hgg
      exact hexp (by simpa using hef2.2)
  · intro gid hget
    rw [hgames gid]
    split_ifs
    · rfl
    · exact hget
  · intro pid gid g hmem hexp hocc
    unfold GameManager.cleanupOldGames
    simp only []
    exact cleanup_occupant_deleted maxAge now mgr.games [] mgr.playerGames pid gid g
      hmem hexp hocc
  · intro pid hno
    unfold GameManager.cleanupOldGames
    simp only []
    exact cleanup_frame maxAge now mgr.games [] mgr.playerGames pid hno
  · unfold GameManager.cleanupOldGames
    simp only []
    rw [cleanup_fold_fst]
    simp

/-- Shared concrete fixture: a manager with an expired finished game whose
occupants are `p1` and `p2`, while `p1`'s map entry points at a live game. -/
def mgrSweep : GameManager :=
  { games := [("old", gFinished), ("live", gPlaying)],
    playerGames := [("p1", "live"), ("p2", "old")], publicQueue := [] }

/-- Witness for C10: sweeping `mgrSweep` removes only the old finished game,
yet deletes `p1`'s mapping to the still-live game. -/
theorem cleanupOldGames_spec_witness :
    mapGet (mgrSweep.cleanupOldGames 10 1000).1.playerGames "p1" = none ∧
    mapGet mgrSweep.playerGames "p1" = some "live" ∧
    mapGet (mgrSweep.cleanupOldGames 10 1000).1.games "live" = some gPlaying ∧
    mapGet (mgrSweep.cleanupOldGames 10 1000).1.games "old" = none := by
  have h := cleanupOldGames_spec mgrSweep 10 1000 (by simp [mgrSweep, JsMap.WF])
  refine ⟨?_, rfl, ?_, ?_⟩
  · exact h.2.2.1 "p1" "old" gFinished (List.Mem.head _) ⟨rfl, by decide⟩
      (Or.inl ⟨rfl, by decide⟩)
  · have hlive := h.1 "live" gPlaying rfl
    rw [hlive, if_neg]
    rintro ⟨hf, _⟩
    exact absurd hf (by decide)
  · have hold := h.1 "old" gFinished rfl
    rw [hold, if_pos ⟨rfl, by decide⟩]

theorem determineWinner_error {a b e : String}
    (h : determineWinner a b = .error e) : e = "Invalid move provided" := by
  unfold determineWinner at h
  simp only [] at h
  split_ifs at h
  all_goals
    first
      | (injection h with h2
         exact h2.symm)
      | exact Except.noConfusion h

theorem processRound_error {g : GameState} {now : Int} {e : String}
    (h : processRound g now = .error e) : e = "Invalid move provided" := by
  cases h1 : g.player1.currentMove with
  | none =>
    cases h2 : g.player2.currentMove with
    | none =>
      simp only [processRound, h1, h2] at h
      injection h with h3
      exact h3.symm
    | some m2 =>
      simp only [processRound, h1, h2] at h
      injection h with h3
      exact h3.symm
  | some m1 =>
    cases h2 : g.player2.currentMove with
    | none =>
      simp only [processRound, h1, h2] at h
      injection h with h3
      exact h3.symm
    | some m2 =>
      cases hw : determineWinner m1 m2 with
      | error e2 =>
        simp only [processRound, h1, h2, hw] at h
        injection h with h3
        rw [← h3]
        exact determineWinner_error hw
      | ok w =>
        simp only [processRound, h1, h2, hw] at h
        exact Except.noConfusion h

theorem invalid_move_concat_ne (m : String) :
    "Invalid move: " ++ m ≠ "Player not in any game" := by
  intro h
  have h2 := congrArg String.data h
  simp [String.data_append] at h2

theorem processMove_error_ne {g : GameState} {p m : String} {now : Int} {e : String}
    (h : (processMove g p m now).2 = .error e) : e ≠ "Player not in any game" := by
  unfold processMove at h
  simp only [] at h
  split_ifs at h
  all_goals
    first
      | (simp only [] at h
         exact Except.noConfusion h)
      | (simp only [] at h
         injection h with h2
         subst h2
         first
           | exact invalid_move_concat_ne m
           | decide)
      | (split at h
         · simp only [] at h
           exact Except.noConfusion h
         · rename_i e2 herr
           simp only [] at h
           injection h with h2
           subst h2
           rw [processRound_error herr]
           decide)

theorem submitMoveCore_playerGames (mgr : GameManager) (gid p m : String) (now : Int) :
    (mgr.submitMoveCore gid p m now).1.playerGames = mgr.playerGames := by
  unfold GameManager.submitMoveCore
  cases h : mapGet mgr.games gid with
  | none => rfl
  | some gs =>
    simp only []
    split_ifs
    · rfl
    · rcases hpm : processMove gs p m now with ⟨st, r⟩
      cases r with
      | ok out => rfl
      | error e2 => rfl

theorem submitMoveCore_error_ne (mgr : GameManager) (gid p m : String) (now : Int) :
    (mgr.submitMoveCore gid p m now).2 ≠ .error "Player not in any game" := by
  unfold GameManager.submitMoveCore
  cases h : mapGet mgr.games gid with
  | none =>
    intro hc
    injection hc with h2
    exact absurd h2 (by decide)
  | some gs =>
    simp only []
    split_ifs
    · intro hc
      injection hc with h2
      exact absurd h2 (by decide)
    · rcases hpm : processMove gs p m now with ⟨st, r⟩
      cases r with
      | ok out =>
        intro hc
        simp only [] at hc
        exact Except.noConfusion hc
      | error e2 =>
        intro hc
        simp only [] at hc
        injection hc with h2
        have hpe : (processMove gs p m now).2 = .error e2 := by rw [hpm]
        exact processMove_error_ne hpe h2

theorem submitMoveFallback_some_mem {mgr : GameManager} {p : String}
    {rg : Option String} {gid : String}
    (h : submitMoveFallback mgr p rg = some gid) :
    ∃ g, (gid, g) ∈ mgr.games ∧
      (g.player1.id = some p ∨ g.player2.id = some p) := by
  unfold submitMoveFallback at h
  simp only [] at h
  split at h
  · rename_i rgv heq
    injection h with h1
    subst h1
    split_ifs at heq
    split at heq
    all_goals try exact Option.noConfusion heq
    rename_i gs hget
    split_ifs at heq with hcond
    injection heq with h2
    subst h2
    exact ⟨gs, mem_of_mapGet_eq_some hget, hcond.1⟩
  · rename_i heq1
    split at h
    · rename_i e heq2
      injection h with h1
      subst h1
      have hpred := List.find?_some heq2
      have hmem := List.mem_reverse.mp (List.mem_of_find?_eq_some heq2)
      simp only [Bool.and_eq_true, Bool.or_eq_true, beq_iff_eq] at hpred
      exact ⟨e.2, hmem, hpred.1⟩
    · rename_i heq2
      rw [Option.map_eq_some'] at h
      obtain ⟨e, hfind, h1⟩ := h
      subst h1
      have hpred := List.find?_some hfind
      have hmem := List.mem_reverse.mp (List.mem_of_find?_eq_some hfind)
      simp only [Bool.or_eq_true, beq_iff_eq] at hpred
      exact ⟨e.2, hmem, hpred⟩

theorem submitMoveFallback_none_iff (mgr : GameManager) (p : String)
    (rg : Option String) :
    submitMoveFallback mgr p rg = none ↔
      ∀ (gid : String) (g : GameState), (gid, g) ∈ mgr.games →
        g.player1.id ≠ some p ∧ g.player2.id ≠ some p := by
  constructor
  · intro h gid g hmem
    unfold submitMoveFallback at h
    simp only [] at h
    split at h
    · exact Option.noConfusion h
    · split at h
      · exact Option.noConfusion h
      · rw [Option.map_eq_none', List.find?_eq_none] at h
        have := h (gid, g) (List.mem_reverse.mpr hmem)
        simp only [Bool.or_eq_true, beq_iff_eq] at this
        push_neg at this
        exact this
  · intro hall
    cases hf : submitMoveFallback mgr p rg with
    | none => rfl
    | some gid =>
      obtain ⟨g, hmem, hor⟩ := submitMoveFallback_some_mem hf
      have := hall gid g hmem
      rcases hor with h | h
      · exact absurd h this.1
      · exact absurd h this.2

theorem submitMoveFallback_priority1 (mgr : GameManager) (p : String)
    (rg : Option String) (g : GameState) (ht : strTruthy rg = true)
    (hget : mapGet mgr.games (rg.getD "") = some g)
    (hor : g.player1.id = some p ∨ g.player2.id = some p)
    (hplay : g.gameStatus = "playing") :
    submitMoveFallback mgr p rg = some (rg.getD "") := by
  unfold submitMoveFallback
  simp only []
  rw [if_pos ht, hget]
  simp only []
  rw [if_pos ⟨hor, hplay⟩]

theorem submitMoveFallback_priority1_none (mgr : GameManager) (p : String)
    (rg : Option String)
    (hmiss : ¬ (strTruthy rg = true ∧ ∃ g, mapGet mgr.games (rg.getD "") = some g ∧
      (g.player1.id = some p ∨ g.player2.id = some p) ∧ g.gameStatus = "playing")) :
    (if strTruthy rg then
      (match mapGet mgr.games (rg.getD "") with
       | some gs =>
         if (gs.player1.id = some p ∨ gs.player2.id = some p) ∧
             gs.gameStatus = "playing" then some (rg.getD "")
         else none
       | none => none)
     else none) = none := by
  split_ifs with ht
  · cases hget : mapGet mgr.games (rg.getD "") with
    | none => rfl
    | some gs =>
      simp only []
      rw [if_neg]
      rintro ⟨hor, hplay⟩
      exact hmiss ⟨ht, gs, hget, hor, hplay⟩
  · rfl

theorem submitMoveFallback_priority2 (mgr : GameManager) (p : String)
    (rg : Option String) (hwf : mgr.games.WF)
    (hmiss : ¬ (strTruthy rg = true ∧ ∃ g, mapGet mgr.games (rg.getD "") = some g ∧
      (g.player1.id = some p ∨ g.player2.id = some p) ∧ g.gameStatus = "playing"))
    (hex : ∃ (gid : String) (g : GameState), (gid, g) ∈ mgr.games ∧
      (g.player1.id = some p ∨ g.player2.id = some p) ∧ g.gameStatus = "playing") :
    ∃ (gid : String) (g : GameState), submitMoveFallback mgr p rg = some gid ∧
      mapGet mgr.games gid = some g ∧
      (g.player1.id = some p ∨ g.player2.id = some p) ∧ g.gameStatus = "playing" := by
  obtain ⟨gid0, g0, hmem0, hor0, hplay0⟩ := hex
  unfold submitMoveFallback
  simp only []
  rw [submitMoveFallback_priority1_none mgr p rg hmiss]
  simp only []
  cases hfind : mgr.games.reverse.find? (fun e =>
      (e.2.player1.id == some p || e.2.player2.id == some p) &&
      e.2.gameStatus == "playing") with
  | none =>
    rw [List.find?_eq_none] at hfind
    have := hfind (gid0, g0) (List.mem_reverse.mpr hmem0)
    simp [hplay0] at this
    rcases hor0 with h | h <;> simp [h] at this
  | some e =>
    have hpred := List.find?_some hfind
    have hmem := List.mem_reverse.mp (List.mem_of_find?_eq_some hfind)
    simp only [Bool.and_eq_true, Bool.or_eq_true, beq_iff_eq] at hpred
    exact ⟨e.1, e.2, rfl, mapGet_eq_some_of_mem hwf hmem, hpred.1, hpred.2⟩

theorem submitMoveFallback_priority3 (mgr : GameManager) (p : String)
    (rg : Option String) (hwf : mgr.games.WF)
    (hnoact : ¬ ∃ (gid : String) (g : GameState), (gid, g) ∈ mgr.games ∧
      (g.player1.id = some p ∨ g.player2.id = some p) ∧ g.gameStatus = "playing")
    (hex : ∃ (gid : String) (g : GameState), (gid, g) ∈ mgr.games ∧
      (g.player1.id = some p ∨ g.player2.id = some p)) :
    ∃ (gid : String) (g : GameState), submitMoveFallback mgr p rg = some gid ∧
      mapGet mgr.games gid = some g ∧
      (g.player1.id = some p ∨ g.player2.id = some p) := by
  obtain ⟨gid0, g0, hmem0, hor0⟩ := hex
  unfold submitMoveFallback
  simp only []
  rw [submitMoveFallback_priority1_none mgr p rg ?hm]
  case hm =>
    rintro ⟨ht, gs, hget, hor, hplay⟩
    exact hnoact ⟨rg.getD "", gs, mem_of_mapGet_eq_some hget, hor, hplay⟩
  simp only []
  have hfind2 : mgr.games.reverse.find? (fun e =>
      (e.2.player1.id == some p || e.2.player2.id == some p) &&
      e.2.gameStatus == "playing") = none := by
    rw [List.find?_eq_none]
    intro x hx
    simp only [Bool.and_eq_true, Bool.or_eq_true, beq_iff_eq]
    rintro ⟨hor, hplay⟩
    exact hnoact ⟨x.1, x.2, List.mem_reverse.mp hx, hor, hplay⟩
  rw [hfind2]
  simp only []
  cases hfind : mgr.games.reverse.find? (fun e =>
      e.2.player1.id == some p || e.2.player2.id == some p) with
  | none =>
    rw [List.find?_eq_none] at hfind
    have := hfind (gid0, g0) (List.mem_reverse.mpr hmem0)
    rcases hor0 with h | h <;> simp [h] at this
  | some e =>
    have hpred := List.find?_some hfind
    have hmem := List.mem_reverse.mp (List.mem_of_find?_eq_some hfind)
    simp only [Bool.or_eq_true, beq_iff_eq] at hpred
    exact ⟨e.1, e.2, rfl, mapGet_eq_some_of_mem hwf hmem, hpred⟩

/-- C8: when the player is absent from `playerGames`, `submitMove` resolves a
match through the three-stage fallback scan — (1) the hinted match when it
contains the player and is in progress, (2) a stored in-progress match
containing the player, (3) a stored match of any status containing the
player — repairing `playerGames` on every hit; and it fails with
`"Player not in any game"` exactly when no stored match holds the player in
either slot. -/
theorem submitMove_fallback_scan (mgr : GameManager) (p m : String)
    (rg : Option String) (now : Int)
    (hwf : mgr.games.WF)
    (habs : mapGet mgr.playerGames p = none) :
    ((mgr.submitMove p m rg now).2 = .error "Player not in any game" ↔
      ∀ (gid : String) (g : GameState), (gid, g) ∈ mgr.games →
        g.player1.id ≠ some p ∧ g.player2.id ≠ some p) ∧
    (∀ gid : String, submitMoveFallback mgr p rg = some gid →
      mapGet (mgr.submitMove p m rg now).1.playerGames p = some gid) ∧
    (∀ g : GameState, strTruthy rg = true →
      mapGet mgr.games (rg.getD "") = some g →
      (g.player1.id = some p ∨ g.player2.id = some p) → g.gameStatus = "playing" →
      submitMoveFallback mgr p rg = some (rg.getD "")) ∧
    (¬ (strTruthy rg = true ∧ ∃ g, mapGet mgr.games (rg.getD "") = some g ∧
          (g.player1.id = some p ∨ g.player2.id = some p) ∧ g.gameStatus = "playing") →
      (∃ (gid : String) (g : GameState), (gid, g) ∈ mgr.games ∧
        (g.player1.id = some p ∨ g.player2.id = some p) ∧ g.gameStatus = "playing") →
      ∃ (gid : String) (g : GameState), submitMoveFallback mgr p rg = some gid ∧
        mapGet mgr.games gid = some g ∧
        (g.player1.id = some p ∨ g.player2.id = some p) ∧ g.gameStatus = "playing") ∧
    ((¬ ∃ (gid : String) (g : GameState), (gid, g) ∈ mgr.games ∧
        (g.player1.id = some p ∨ g.player2.id = some p) ∧ g.gameStatus = "playing") →
      (∃ (gid : String) (g : GameState), (gid, g) ∈ mgr.games ∧
        (g.player1.id = some p ∨ g.player2.id = some p)) →
      ∃ (gid : String) (g : GameState), submitMoveFallback mgr p rg = some gid ∧
        mapGet mgr.games gid = some g ∧
        (g.player1.id = some p ∨ g.player2.id = some p)) := by
  refine ⟨?_, ?_, ?_, ?_, ?_⟩
  · rw [← submitMoveFallback_none_iff mgr p rg]
    simp only [GameManager.submitMove, habs]
    cases hf : submitMoveFallback mgr p rg with
    | none => simp
    | some gid =>
      simp only []
      constructor
      · intro hc
        exact absurd hc (submitMoveCore_error_ne _ gid p m now)
      · intro hc
        exact Option.noConfusion hc
  · intro gid hf
    simp only [GameManager.submitMove, habs, hf]
    rw [submitMoveCore_playerGames]
    exact mapGet_mapSet_self _ _ _
  · intro g ht hget hor hplay
    exact submitMoveFallback_priority1 mgr p rg g ht hget hor hplay
  · intro hmiss hex
    exact submitMoveFallback_priority2 mgr p rg hwf hmiss hex
  · intro hnoact hex
    exact submitMoveFallback_priority3 mgr p rg hwf hnoact hex

/-- Concrete fixture for C8: one stored active match, empty player map. -/
def mgrC8 : GameManager :=
  { games := [("g1", gPlaying)], playerGames := [], publicQueue := [] }

/-- Witness for C8 at `mgrC8`: the scan finds the hinted match, repairs the
player map, and the not-in-any-game error cannot occur. -/
theorem submitMove_fallback_scan_witness :
    mgrC8.games.WF ∧ mapGet mgrC8.playerGames "p1" = none ∧
    submitMoveFallback mgrC8 "p1" (some "g1") = some "g1" ∧
    mapGet (mgrC8.submitMove "p1" "rock" (some "g1") 0).1.playerGames "p1" = some "g1" ∧
    (mgrC8.submitMove "p1" "rock" (some "g1") 0).2 ≠ .error "Player not in any game" := by
  have h := submitMove_fallback_scan mgrC8 "p1" "rock" (some "g1") 0
    (by simp [mgrC8, JsMap.WF]) rfl
  have hf : submitMoveFallback mgrC8 "p1" (some "g1") = some "g1" :=
    h.2.2.1 gPlaying (by decide) rfl (Or.inl rfl) rfl
  refine ⟨by simp [mgrC8, JsMap.WF], rfl, hf, h.2.1 "g1" hf, ?_⟩
  intro hc
  have := h.1.mp hc "g1" gPlaying (by simp [mgrC8])
  exact this.1 rfl


theorem atMostOne_sublist {q1 q2 : List Ticket} (hs : List.Sublist q1 q2)
    (hq : AtMostOneTicket q2) : AtMostOneTicket q1 := by
  intro pid
  exact le_trans (List.Sublist.length_le (List.Sublist.filter _ hs)) (hq pid)

theorem ticket_filter_ne_eq_nil (q : List Ticket) (p : String) :
    (q.filter (fun t => t.playerId != p)).filter (fun t => t.playerId == p) = [] := by
  induction q with
  | nil => rfl
  | cons t ts ih =>
    by_cases h : t.playerId = p
    · simp [List.filter_cons, h, ih]
    · simp [List.filter_cons, h, ih]

theorem filter_replace_self_len (q : List Ticket) (p : String) (tk : Ticket)
    (htk : tk.playerId = p) :
    (((q.filter (fun t => t.playerId != p)) ++ [tk]).filter
      (fun t => t.playerId == p)).length = 1 := by
  rw [List.filter_append, ticket_filter_ne_eq_nil]
  simp [htk]

theorem atMostOne_replace {q : List Ticket} {p : String} {tk : Ticket}
    (htk : tk.playerId = p) (hq : AtMostOneTicket q) :
    AtMostOneTicket ((q.filter (fun t => t.playerId != p)) ++ [tk]) := by
  intro pid
  rw [List.filter_append]
  by_cases hpid : pid = p
  · subst hpid
    rw [ticket_filter_ne_eq_nil]
    simp [htk]
  · have h2 : [tk].filter (fun t => t.playerId == pid) = [] := by
      simp [htk]
      exact fun hc => hpid hc.symm
    rw [h2, List.append_nil]
    exact le_trans
      (List.Sublist.length_le (List.Sublist.filter _ (List.filter_sublist q))) (hq pid)

theorem mapSet_WF {α : Type} {m : JsMap α} (k : String) (v : α) (h : m.WF) :
    (mapSet m k v).WF := by
  unfold mapSet JsMap.WF at *
  split_ifs with hany
  · have hkeys : (m.map (fun e => if e.1 == k then (k, v) else e)).map (·.1)
        = m.map (·.1) := by
      rw [List.map_map]
      apply List.map_congr_left
      intro e he
      by_cases hek : e.1 = k
      · simp [hek]
      · simp [hek]
    rw [hkeys]
    exact h
  · rw [List.map_append, List.nodup_append]
    refine ⟨h, by simp, ?_⟩
    intro a ha hb
    simp only [List.map_cons, List.map_nil, List.mem_singleton] at hb
    subst hb
    rw [List.mem_map] at ha
    obtain ⟨e, hem, hek⟩ := ha
    rw [List.any_eq_true] at hany
    exact hany ⟨e, hem, by simp [hek]⟩

theorem removePlayer_parts (mgr : GameManager) (p : String) :
    ((mgr.removePlayer p).1.games = mgr.games ∨
      ∃ (gid : String) (g : GameState),
        (mgr.removePlayer p).1.games = mapSet mgr.games gid g) ∧
    List.Sublist (mgr.removePlayer p).1.publicQueue mgr.publicQueue := by
  unfold GameManager.removePlayer
  simp only []
  repeat' split
  all_goals refine ⟨?_, ?_⟩
  all_goals try exact Or.inl rfl
  all_goals try exact Or.inr ⟨_, _, rfl⟩
  all_goals try exact List.eraseIdx_sublist _ _
  all_goals exact List.Sublist.refl _

theorem strTruthy_eq_some {o : Option String} (h : strTruthy o = true) :
    o = some (o.getD "") := by
  cases o with
  | none => exact Bool.noConfusion h
  | some s => rfl


theorem addPlayer_distinct {g : GameState} {p sid : String} {w : Option String}
    {st : GameState} {pos : String}
    (hne : g.player1.id ≠ some p)
    (h : addPlayer g p sid w = .ok (st, pos)) :
    st.player1.id ≠ st.player2.id := by
  unfold addPlayer at h
  simp only [] at h
  split at h
  · rename_i c1
    exact absurd c1 hne
  · rename_i c1
    split at h
    · rename_i c2
      injection h with h1
      injection h1 with h2 h3
      subst h2
      split_ifs
      all_goals intro hc
      all_goals exact hne (hc.trans c2)
    · rename_i c2
      split at h
      · rename_i c3
        injection h with h1
        injection h1 with h2 h3
        subst h2
        intro hc
        exact c2 hc.symm
      · rename_i c3
        split at h
        · rename_i c4
          injection h with h1
          injection h1 with h2 h3
          subst h2
          intro hc
          exact hne hc
        · exact Except.noConfusion h

theorem addPlayer_fresh_player1 {g : GameState} {p sid : String} {w : Option String}
    {st : GameState} {pos : String}
    (h1 : g.player1.id = none) (h2 : g.player2.id = none)
    (h : addPlayer g p sid w = .ok (st, pos)) :
    st.player1.id = some p := by
  unfold addPlayer at h
  simp only [] at h
  have hc1 : ¬ (g.player1.id = some p) := by
    rw [h1]
    exact fun hc => Option.noConfusion hc
  have hc2 : ¬ (g.player2.id = some p) := by
    rw [h2]
    exact fun hc => Option.noConfusion hc
  rw [if_neg hc1, if_neg hc2, if_pos h1] at h
  injection h with h4
  injection h4 with h5 h6
  subst h5
  rfl

theorem createGame_publicQueue (mgr : GameManager) (gt : String) (st : Rat)
    (cur : String) (cid sid w pgid : Option String) (db : String → Bool)
    (fid : String) (now : Int) :
    (mgr.createGame gt st cur cid sid w pgid db fid now).1.publicQueue
      = mgr.publicQueue := by
  unfold GameManager.createGame
  simp only []
  repeat' split
  all_goals rfl

theorem joinGame_publicQueue (mgr : GameManager) (gid p sid : String)
    (w : Option String) (db : String → Bool) :
    (mgr.joinGame gid p sid w db).1.publicQueue = mgr.publicQueue := by
  unfold GameManager.joinGame
  simp only []
  repeat' split
  all_goals rfl

theorem joinGame_ok_distinct {mgr : GameManager} {gid p sid : String}
    {w : Option String} {db : String → Bool} {gs : GameState} {j : JoinResult}
    (hget : mapGet mgr.games gid = some gs)
    (hne : gs.player1.id ≠ some p)
    (h : (mgr.joinGame gid p sid w db).2 = .ok j) :
    j.gameState.player1.id ≠ j.gameState.player2.id := by
  unfold GameManager.joinGame at h
  simp only [hget] at h
  split at h
  · exact Except.noConfusion h
  · split at h
    · exact Except.noConfusion h
    · split at h
      · exact Except.noConfusion h
      · split at h
        · exact Except.noConfusion h
        · rename_i st0 pos hap
          injection h with h1
          subst h1
          have hd : st0.player1.id ≠ st0.player2.id := addPlayer_distinct hne hap
          split_ifs
          all_goals exact hd

theorem createGame_ok_lookup {mgr : GameManager} {st : Rat} {cur : String}
    {cid sid w : Option String} {db : String → Bool} {fid : String} {now : Int}
    {mgr2 : GameManager} {c : CreateResult}
    (h : mgr.createGame "public" st cur cid sid w none db fid now = (mgr2, .ok c)) :
    mapGet mgr2.games c.gameId = some c.gameState ∧
    (c.gameState.player1.id = none ∨ c.gameState.player1.id = cid) := by
  unfold GameManager.createGame at h
  simp only [] at h
  split at h
  · injection h with h1 h2
    exact Except.noConfusion h2
  · split at h
    · rename_i hcr
      split at h
      · injection h with h1 h2
        exact Except.noConfusion h2
      · rename_i st0 pos hap
        injection h with h1 h2
        subst h1
        injection h2 with h3
        subst h3
        have hp1 : st0.player1.id = some (cid.getD "") :=
          addPlayer_fresh_player1 rfl rfl hap
        constructor
        · exact mapGet_mapSet_self _ _ _
        · right
          simp only []
          rw [strTruthy_eq_some hcr.1]
          by_cases hsol : cur = "sol"
          · rw [if_pos hsol]
            exact hp1
          · rw [if_neg hsol]
            exact hp1
    · injection h with h1 h2
      subst h1
      injection h2 with h3
      subst h3
      exact ⟨mapGet_mapSet_self _ _ _, Or.inl rfl⟩

theorem findEnqueue_spec (mgr : GameManager) (p sid : String) (stake : Rat)
    (cur : String) (w : Option String) (db : String → Bool) (f : String)
    (now : Int) (hq : AtMostOneTicket mgr.publicQueue) :
    (∀ r, (mgr.findEnqueue p sid stake cur w db f now).2 = .ok r →
      r.gameStarted = false ∧ r.inQueue = true) ∧
    ((mgr.findEnqueue p sid stake cur w db f now).1.publicQueue.filter
      (fun t => t.playerId == p)).length = 1 ∧
    AtMostOneTicket (mgr.findEnqueue p sid stake cur w db f now).1.publicQueue := by
  unfold GameManager.findEnqueue
  simp only []
  rcases hcg : GameManager.createGame
      { mgr with publicQueue :=
          mgr.publicQueue.filter (fun t => t.playerId != p) ++
            [{ playerId := p, socketId := sid, stakeAmount := stake,
               currency := cur, walletAddress := w, queuedAt := now }] }
      "public" stake cur (some p) (some sid) w none db f now with ⟨mgr2, cr⟩
  have hQ : mgr2.publicQueue =
      mgr.publicQueue.filter (fun t => t.playerId != p) ++
        [{ playerId := p, socketId := sid, stakeAmount := stake,
           currency := cur, walletAddress := w, queuedAt := now }] := by
    have := createGame_publicQueue
      { mgr with publicQueue :=
          mgr.publicQueue.filter (fun t => t.playerId != p) ++
            [{ playerId := p, socketId := sid, stakeAmount := stake,
               currency := cur, walletAddress := w, queuedAt := now }] }
      "public" stake cur (some p) (some sid) w none db f now
    rw [hcg] at this
    exact this
  simp only []
  cases cr with
  | ok c =>
    refine ⟨?_, ?_, ?_⟩
    · intro r hr
      injection hr with h1
      subst h1
      exact ⟨rfl, rfl⟩
    · rw [hQ]
      exact filter_replace_self_len _ _ _ rfl
    · rw [hQ]
      exact atMostOne_replace rfl hq
  | error e =>
    refine ⟨?_, ?_, ?_⟩
    · intro r hr
      exact Except.noConfusion hr
    · rw [hQ]
      exact filter_replace_self_len _ _ _ rfl
    · rw [hQ]
      exact atMostOne_replace rfl hq

theorem findSearch_spec (mgr1 : GameManager) (p sid : String) (stake : Rat)
    (cur : String) (w : Option String) (db : String → Bool) (f1 f2 : String)
    (now : Int) (hwf : mgr1.games.WF) (hq : AtMostOneTicket mgr1.publicQueue) :
    (∀ r, (mgr1.findSearch p sid stake cur w db f1 f2 now).2 = .ok r →
      r.gameStarted = true → r.gameState.player1.id ≠ r.gameState.player2.id) ∧
    (∀ r, (mgr1.findSearch p sid stake cur w db f1 f2 now).2 = .ok r →
      r.inQueue = true →
      ((mgr1.findSearch p sid stake cur w db f1 f2 now).1.publicQueue.filter
        (fun t => t.playerId == p)).length = 1) ∧
    AtMostOneTicket (mgr1.findSearch p sid stake cur w db f1 f2 now).1.publicQueue := by
  unfold GameManager.findSearch
  cases hfind : mgr1.games.find? (fun e =>
      e.2.gameType == "public" && e.2.gameStatus == "waiting_for_player" &&
      e.2.stakeAmount == stake && e.2.currency == cur &&
      e.2.player1.id != some p) with
  | some e =>
    obtain ⟨gameId, gs0⟩ := e
    simp only []
    have hpred := List.find?_some hfind
    have hmem := List.mem_of_find?_eq_some hfind
    simp only [Bool.and_eq_true, bne_iff_ne, beq_iff_eq] at hpred
    have hget : mapGet mgr1.games gameId = some gs0 := mapGet_eq_some_of_mem hwf hmem
    have hne : gs0.player1.id ≠ some p := hpred.2
    rcases hjg : mgr1.joinGame gameId p sid w db with ⟨mgr2, jr⟩
    simp only []
    have hpq : mgr2.publicQueue = mgr1.publicQueue := by
      have := joinGame_publicQueue mgr1 gameId p sid w db
      rw [hjg] at this
      exact this
    refine ⟨?_, ?_, ?_⟩
    · intro r hr _
      cases jr with
      | error e2 => exact Except.noConfusion hr
      | ok j =>
        have hok : (mgr1.joinGame gameId p sid w db).2 = .ok j := by rw [hjg]
        have hd := joinGame_ok_distinct hget hne hok
        injection hr with h1
        subst h1
        exact hd
    · intro r hr hinq
      cases jr with
      | error e2 => exact Except.noConfusion hr
      | ok j =>
        injection hr with h1
        subst h1
        exact Bool.noConfusion hinq
    · rw [hpq]
      exact hq
  | none =>
    simp only []
    cases hqf : mgr1.publicQueue.find? (fun t =>
        t.playerId != p && t.stakeAmount == stake && t.currency == cur) with
    | none =>
      simp only []
      have h := findEnqueue_spec mgr1 p sid stake cur w db f2 now hq
      refine ⟨?_, ?_, h.2.2⟩
      · intro r hr hst
        have := (h.1 r hr).1
        rw [this] at hst
        exact Bool.noConfusion hst
      · intro r hr _
        exact h.2.1
    | some qp =>
      simp only []
      have hqp : qp.playerId ≠ p := by
        have hp2 := List.find?_some hqf
        simp only [Bool.and_eq_true, bne_iff_ne, beq_iff_eq] at hp2
        exact hp2.1.1
      rcases hcg : GameManager.createGame
          { mgr1 with publicQueue :=
              mgr1.publicQueue.filter (fun t => t.playerId != qp.playerId) }
          "public" stake cur (some qp.playerId) (some qp.socketId)
          qp.walletAddress none db f1 now with ⟨mgrB, cr⟩
      simp only []
      have hQB : mgrB.publicQueue =
          mgr1.publicQueue.filter (fun t => t.playerId != qp.playerId) := by
        have := createGame_publicQueue
          { mgr1 with publicQueue :=
              mgr1.publicQueue.filter (fun t => t.playerId != qp.playerId) }
          "public" stake cur (some qp.playerId) (some qp.socketId)
          qp.walletAddress none db f1 now
        rw [hcg] at this
        exact this
      have hqB : AtMostOneTicket mgrB.publicQueue := by
        rw [hQB]
        exact atMostOne_sublist (List.filter_sublist _) hq
      cases cr with
      | error e2 =>
        simp only []
        have h := findEnqueue_spec mgrB p sid stake cur w db f2 now hqB
        refine ⟨?_, ?_, h.2.2⟩
        · intro r hr hst
          have := (h.1 r hr).1
          rw [this] at hst
          exact Bool.noConfusion hst
        · intro r hr _
          exact h.2.1
      | ok c =>
        simp only []
        have hlk := createGame_ok_lookup hcg
        have hne2 : c.gameState.player1.id ≠ some p := by
          rcases hlk.2 with h | h
          · rw [h]
            exact fun hc => Option.noConfusion hc
          · rw [h]
            intro hc
            injection hc with hc2
            exact hqp hc2
        rcases hjg : mgrB.joinGame c.gameId p sid w db with ⟨mgrC, jr⟩
        simp only []
        have hQC : mgrC.publicQueue = mgrB.publicQueue := by
          have := joinGame_publicQueue mgrB c.gameId p sid w db
          rw [hjg] at this
          exact this
        have hqC : AtMostOneTicket mgrC.publicQueue := by
          rw [hQC]
          exact hqB
        cases jr with
        | ok j =>
          simp only []
          have hok : (mgrB.joinGame c.gameId p sid w db).2 = .ok j := by rw [hjg]
          have hd := joinGame_ok_distinct hlk.1 hne2 hok
          refine ⟨?_, ?_, ?_⟩
          · intro r hr _
            injection hr with h1
            subst h1
            exact hd
          · intro r hr hinq
            injection hr with h1
            subst h1
            exact Bool.noConfusion hinq
          · rw [hQC]
            exact hqB
        | error e2 =>
          simp only []
          have h := findEnqueue_spec mgrC p sid stake cur w db f2 now hqC
          refine ⟨?_, ?_, h.2.2⟩
          · intro r hr hst
            have := (h.1 r hr).1
            rw [this] at hst
            exact Bool.noConfusion hst
          · intro r hr _
            exact h.2.1

/-- C9: `findRandomMatch` never pairs a player with itself — whenever it
reports a started (two-sided) match, the two slots hold different player
identities, because the waiting-game search and the queue search both skip
entries belonging to the requester; and the queue keeps at most one ticket
per player: enqueueing replaces any previous ticket of the requester (the
final queue holds exactly one of theirs), and a queue with no duplicates
never acquires one. -/
theorem findRandomMatch_no_self_pair (mgr : GameManager) (p sid : String)
    (stake0 : Rat) (cur0 : String) (w : Option String) (db : String → Bool)
    (f1 f2 : String) (now : Int)
    (hwf : mgr.games.WF) (hq : AtMostOneTicket mgr.publicQueue) :
    (∀ r, (mgr.findRandomMatch p sid stake0 cur0 w db f1 f2 now).2 = .ok r →
      r.gameStarted = true → r.gameState.player1.id ≠ r.gameState.player2.id) ∧
    (∀ r, (mgr.findRandomMatch p sid stake0 cur0 w db f1 f2 now).2 = .ok r →
      r.inQueue = true →
      ((mgr.findRandomMatch p sid stake0 cur0 w db f1 f2 now).1.publicQueue.filter
        (fun t => t.playerId == p)).length = 1) ∧
    AtMostOneTicket (mgr.findRandomMatch p sid stake0 cur0 w db f1 f2 now).1.publicQueue := by
  unfold GameManager.findRandomMatch
  simp only []
  cases hpg : mapGet mgr.playerGames p with
  | none =>
    simp only []
    exact findSearch_spec mgr p sid _ _ w db f1 f2 now hwf hq
  | some egid =>
    simp only []
    cases hg : mapGet mgr.games egid with
    | none =>
      simp only []
      exact findSearch_spec mgr p sid _ _ w db f1 f2 now hwf hq
    | some eg =>
      simp only []
      have hparts := removePlayer_parts mgr p
      have hwf2 : (mgr.removePlayer p).1.games.WF := by
        rcases hparts.1 with h | ⟨gid, g, h⟩
        · rw [h]
          exact hwf
        · rw [h]
          exact mapSet_WF _ _ hwf
      have hq2 : AtMostOneTicket (mgr.removePlayer p).1.publicQueue :=
        atMostOne_sublist hparts.2 hq
      split_ifs with hst
      all_goals try exact findSearch_spec mgr p sid _ _ w db f1 f2 now hwf hq
      all_goals exact findSearch_spec (mgr.removePlayer p).1 p sid _ _ w db f1 f2 now hwf2 hq2

/-- Shared concrete fixture: a stored public waiting match occupied by `p1`
only, with the points stake. -/
def gWaiting : GameState :=
  { createGameState "gw" "public" 100 "points" 0 with
    player1 := basePlayer1 }

/-- Concrete fixture for C9: one waiting public match, empty player map and
queue. -/
def mgrC9 : GameManager :=
  { games := [("gw", gWaiting)], playerGames := [], publicQueue := [] }

/-- Witness for C9 at `mgrC9`: requester `p2` matchmaking against `p1`'s
waiting match. -/
theorem findRandomMatch_no_self_pair_witness :
    mgrC9.games.WF ∧ AtMostOneTicket mgrC9.publicQueue ∧
    (∀ r, (mgrC9.findRandomMatch "p2" "s2" 0 "points" none (fun _ => true)
        "f1" "f2" 0).2 = .ok r →
      r.gameStarted = true → r.gameState.player1.id ≠ r.gameState.player2.id) ∧
    AtMostOneTicket (mgrC9.findRandomMatch "p2" "s2" 0 "points" none
      (fun _ => true) "f1" "f2" 0).1.publicQueue := by
  have h := findRandomMatch_no_self_pair mgrC9 "p2" "s2" 0 "points" none
    (fun _ => true) "f1" "f2" 0 (by simp [mgrC9, JsMap.WF])
    (by intro pid; simp [mgrC9])
  exact ⟨by simp [mgrC9, JsMap.WF], by intro pid; simp [mgrC9], h.1, h.2.2⟩

end RPS
